import Mathlib

/-!
Verification of the Webinar Reconciliation Engine of `schedule.py`.

The shallow embedding below translates the data model and algorithms of
`schedule.py` into executable Lean definitions:

* Python dictionaries are modelled as association lists `List (String × α)`
  with Python `dict` semantics: assignment to an existing key replaces the
  value in place (keeping its position), assignment to a fresh key appends,
  iteration follows insertion order (`ainsert`, `alookup`, `amem`,
  `aerase`, `dupdate`).
* Python string primitives (`in`, `strip`, `lower`, `split`) are modelled
  by structurally recursive functions over the character list, so every
  definition evaluates inside the kernel.
* Timestamps are modelled as integers (minutes); the external ISO-8601
  parser `datetime.fromisoformat` is modelled by digit-string parsing
  (`parseDate`), which preserves the property the engine relies on:
  parsing either yields a value usable in arithmetic comparisons or fails
  and invalidates the row.  Numeric coercion of `duration`/`reminderTime`
  is abstracted to pre-coerced optional integers.
* The remote Webex API is modelled as explicit state (`RemoteState`)
  together with a trace of issued calls (`Call`); in the deterministic
  model remote operations succeed, and the failure cases a claim needs
  (missing webinar on fetch, unmapped column, write-back failure) are
  modelled explicitly where the corresponding code paths are embedded.
  Identifiers minted by the remote service are modelled by an injective
  fresh-id scheme.
-/

set_option maxHeartbeats 1000000

namespace SchedulePy

/-! ## Definitions -/

/-! ### Python dict model -/

/-- Python dict assignment `m[k] = v`: replace the entry in place if the
key is present, append otherwise. -/
def ainsert {α : Type} : List (String × α) → String → α → List (String × α)
  | [], k, v => [(k, v)]
  | p :: t, k, v => if p.1 = k then (k, v) :: t else p :: ainsert t k v

/-- Python dict lookup `m[k]` (as an `Option`). -/
def alookup {α : Type} (m : List (String × α)) (k : String) : Option α :=
  (m.find? (fun p => p.1 = k)).map Prod.snd

/-- Python `k in m`. -/
def amem {α : Type} (m : List (String × α)) (k : String) : Bool :=
  m.any (fun p => p.1 = k)

/-- Python `del m[k]` (total: removing an absent key is the identity; on
maps with unique keys this is exactly single-entry removal). -/
def aerase {α : Type} (m : List (String × α)) (k : String) :
    List (String × α) :=
  m.filter (fun p => ¬ p.1 = k)

/-- Python `m1.update(m2)` / `m1 | m2` (PEP 584): entries of `m2` are
assigned into `m1` in order, so `m2` wins on key collisions. -/
def dupdate {α : Type} (m1 m2 : List (String × α)) : List (String × α) :=
  m2.foldl (fun acc p => ainsert acc p.1 p.2) m1

/-- Keys of an association list. -/
def akeys {α : Type} (m : List (String × α)) : List String :=
  m.map Prod.fst

/-! ### String helpers -/

/-- Python `c in s` for a single character. -/
def strContains (s : String) (c : Char) : Bool :=
  s.data.contains c

/-- The whitespace characters Python `str.strip()` removes. -/
def pyWhitespace (c : Char) : Bool :=
  c = ' ' || c = '\t' || c = '\n' || c = '\r' || c = '\x0b' || c = '\x0c'

/-- Python `str.strip()`. -/
def strTrim (s : String) : String :=
  ⟨((s.data.dropWhile pyWhitespace).reverse.dropWhile pyWhitespace).reverse⟩

/-- Python `str.lower()`. -/
def strToLower (s : String) : String :=
  ⟨s.data.map Char.toLower⟩

/-- Helper for splitting a character list at a separator. -/
def splitOnCharAux (sep : Char) : List Char → List Char → List (List Char)
  | [], cur => [cur.reverse]
  | c :: rest, cur =>
    if c = sep then cur.reverse :: splitOnCharAux sep rest []
    else splitOnCharAux sep rest (c :: cur)

/-- Python `str.split(",")`. -/
def strSplitComma (s : String) : List String :=
  (splitOnCharAux ',' s.data []).map String.mk

/-- Python `str(x)` on an optional string (`str(None)` is `"None"`). -/
def pyStr (x : Option String) : String :=
  match x with
  | some s => s
  | none => "None"

/-! ### Contact Resolver (`stringContactsToDict`, schedule.py lines 299-322)

`email.utils.getaddresses` is an external-library collaborator; it is
modelled for the simple RFC-5322 shapes the engine feeds it: a token is
either `Name <addr>` or a bare address/nickname token. -/

/-- Model of parsing one comma-separated token the way
`email.utils.getaddresses` returns it: a `(realname, address)` pair. -/
def parseContact (token : String) : String × String :=
  if strContains token '<' then
    (strTrim ⟨token.data.takeWhile (fun c => ¬ c = '<')⟩,
     ⟨((token.data.dropWhile (fun c => ¬ c = '<')).drop 1).takeWhile
       (fun c => ¬ c = '>')⟩)
  else ("", strTrim token)

/-- Model of `email.utils.getaddresses` applied to the comma-split pieces
of the contacts string: whitespace-only pieces contribute nothing. -/
def getaddresses (tokens : List String) : List (String × String) :=
  (tokens.filter (fun t => ¬ strTrim t = "")).map parseContact

/-- The loop body of `stringContactsToDict`: an address containing `@` is
a concrete contact (key = lowercased trimmed address, value = trimmed name
or `"Panelist"`); otherwise the token is a nickname looked up in the
nickname table (entry = `(nickname, (email, name))`), silently dropped on
a miss. -/
def contactStep (nicknames : List (String × String × String))
    (res : List (String × String)) (contact : String × String) :
    List (String × String) :=
  if strContains contact.2 '@' then
    ainsert res (strToLower (strTrim contact.2))
      (if strTrim contact.1 = "" then "Panelist" else strTrim contact.1)
  else
    match alookup nicknames (strToLower (strTrim contact.2)) with
    | some en => ainsert res en.1 en.2
    | none => res

/-- The dict-building fold of `stringContactsToDict` over the parsed
`(realname, address)` pairs. -/
def contactsFold (nicknames : List (String × String × String))
    (pairs : List (String × String)) : List (String × String) :=
  pairs.foldl (contactStep nicknames) []

/-- `stringContactsToDict` (schedule.py lines 299-322). `contacts` is the
raw cell value already passed through Python `str()`. -/
def stringContactsToDict (nicknames : List (String × String × String))
    (contacts : String) : List (String × String) :=
  contactsFold nicknames (getaddresses (strSplitComma contacts))

/-! ### Column Mapper (`initSharepoint`, schedule.py lines 96-109, 203-217) -/

/-- The built-in default logical-name to display-name table
(schedule.py lines 96-109). -/
def defaultSharepointColumns : List (String × String) :=
  [("create", "Create"),
   ("startdatetime", "Start Date and Time"),
   ("duration", "Duration"),
   ("title", "Title"),
   ("agenda", "Agenda"),
   ("cohosts", "Cohosts"),
   ("panelists", "Panelists"),
   ("webinarId", "Webinar ID"),
   ("attendeeUrl", "Attendee URL"),
   ("hostKey", "Host Key"),
   ("registrantCount", "Registrant Count")]

/-- The `columns` dict built from the fetched Sharepoint fields
(schedule.py lines 203-206): display title to internal name. -/
def buildColumnsDict (fields : List (String × String)) :
    List (String × String) :=
  fields.foldl (fun acc f => ainsert acc f.1 f.2) []

/-- The `spColumnMap` loop (schedule.py lines 208-211): for each logical
column whose display name resolves in the source column set, record the
internal name; unmatched entries are omitted. -/
def buildSpColumnMap (paramsColumns columns : List (String × String)) :
    List (String × String) :=
  paramsColumns.foldl (fun acc pc =>
    match alookup columns pc.2 with
    | some internal => ainsert acc pc.1 internal
    | none => acc) []

/-- `requiredColumns` (schedule.py line 214). -/
def requiredColumns : List String :=
  ["create", "startdatetime", "title", "webinarId"]

/-- `columnsDiff` (schedule.py line 215): the required logical names not
mapped (the Python `set` difference, here in a fixed order). -/
def columnsDiff (spColumnMap : List (String × String)) : List String :=
  requiredColumns.filter (fun c => ¬ amem spColumnMap c = true)

/-- The column-mapping part of `initSharepoint` (schedule.py lines
203-217): apply operator overrides on top of the defaults, resolve each
display name against the source fields, and fail with the list of missing
required logical names when any required column is unmapped. -/
def initSharepointColumnMapping (overrides sourceFields : List (String × String)) :
    Except (List String) (List (String × String)) :=
  let spColumnMap :=
    buildSpColumnMap (dupdate defaultSharepointColumns overrides)
      (buildColumnsDict sourceFields)
  if columnsDiff spColumnMap = [] then Except.ok spColumnMap
  else Except.error (columnsDiff spColumnMap)

/-! ### Remote data model -/

/-- A remote meeting invitee (`webexApi.meeting_invitees` item). -/
structure RemoteInvitee where
  id : String
  email : String
  displayName : String
  panelist : Bool
  coHost : Bool
deriving DecidableEq

/-- A remote webinar (`webexApi.meetings` item), together with its
invitee list. -/
structure Webinar where
  id : String
  title : String
  agenda : Option String
  start : Int
  endTime : Int
  password : String
  hostKey : String
  registerLink : String
  invitees : List RemoteInvitee
deriving DecidableEq

/-- One remote or source-row side-effecting call issued by the engine.
Informational log lines are not traced; row-level error log lines are. -/
inductive Call where
  | meetingsCreate (title : String) (agenda : Option String)
      (start endTime : Int) (reminderTime : Int)
  | meetingsGet (meetingId : String)
  | meetingsUpdate (meetingId title : String) (agenda : Option String)
      (start endTime : Int) (password : String) (sendEmail : Bool)
  | inviteesList (meetingId : String)
  | inviteeCreate (meetingId email displayName : String)
      (panelist coHost sendEmail : Bool)
  | inviteeUpdate (inviteeId email displayName : String)
      (panelist coHost sendEmail : Bool)
  | inviteeDelete (inviteeId : String)
  | rowSetProperty (column value : String)
  | rowSetRegistrantCount (count : Nat)
  | rowCommit
  | logError (msg : String)
deriving DecidableEq

/-! ### Invitee Reconciler (schedule.py lines 601-663) -/

/-- The `currentInvitees` dict (schedule.py lines 606-609): remote
invitees flagged panelist-or-coHost, indexed by email.  This doubles as
the uninvite-candidate set. -/
def buildCurrentInvitees (remote : List RemoteInvitee) :
    List (String × RemoteInvitee) :=
  remote.foldl
    (fun acc i => if i.panelist || i.coHost then ainsert acc i.email i else acc)
    []

/-- One iteration of the `for email in eventInvitees` loop
(schedule.py lines 622-654): update a changed existing invitee and remove
it from the uninvite-candidate set, or create a missing one. -/
def inviteeStep (mid : String) (panelists cohosts : List (String × String))
    (acc : List Call × List (String × RemoteInvitee)) (p : String × String) :
    List Call × List (String × RemoteInvitee) :=
  match alookup acc.2 p.1 with
  | some inv =>
    let ops := if ¬ p.2 = inv.displayName ∨ ¬ amem cohosts p.1 = inv.coHost then
        acc.1 ++ [Call.inviteeUpdate inv.id p.1 p.2
          (amem panelists p.1 || amem cohosts p.1) (amem cohosts p.1) true]
      else acc.1
    (ops, aerase acc.2 p.1)
  | none =>
    (acc.1 ++ [Call.inviteeCreate mid p.1 p.2
      (amem panelists p.1 || amem cohosts p.1) (amem cohosts p.1) true],
     acc.2)

/-- The invitee diffing algorithm (schedule.py lines 621-663): walk the
merged desired map `panelists | cohosts`, then delete every remaining
uninvite candidate. -/
def reconcileInvitees (mid : String)
    (panelists cohosts : List (String × String))
    (cur : List (String × RemoteInvitee)) : List Call :=
  let r := (dupdate panelists cohosts).foldl
    (inviteeStep mid panelists cohosts) ([], cur)
  r.1 ++ r.2.map (fun q => Call.inviteeDelete q.2.id)

/-- The full invitee phase for one webinar (schedule.py lines 601-663):
list current invitees, optionally collapse cohosts into panelists
(`noCohosts`), then diff. -/
def processInvitees (noCohosts : Bool) (mid : String)
    (panelists cohosts : List (String × String))
    (remote : List RemoteInvitee) : List Call :=
  let panelists2 := if noCohosts then dupdate panelists cohosts else panelists
  let cohosts2 : List (String × String) := if noCohosts then [] else cohosts
  Call.inviteesList mid ::
    reconcileInvitees mid panelists2 cohosts2 (buildCurrentInvitees remote)

/-! ### Property Extractor (schedule.py lines 440-489) -/

/-- A source list row.  Numeric cells (`duration`, `reminderTime`) are
modelled pre-coerced; `startdatetime` keeps its raw string so that the
parse can fail. -/
structure Row where
  create : Bool
  title : Option String
  agenda : Option String
  startdatetimeRaw : Option String
  durationRaw : Option Int
  timezone : Option String
  password : Option String
  reminderTimeRaw : Option Int
  cohostsRaw : Option String
  panelistsRaw : Option String
  webinarId : Option String
deriving DecidableEq

/-- Run-wide configuration: the clock, the nickname table, the global
default parameters and the optional-column mapping flags. -/
structure Config where
  now : Int
  nicknames : List (String × String × String)
  alwaysInvitePanelists : Option String
  noCohosts : Bool
  hostKeyMapped : Bool
  attendeeUrlMapped : Bool
  registrantCountMapped : Bool
deriving DecidableEq

/-- The validated per-row webinar intent (the `event` dict). -/
structure Intent where
  title : String
  agenda : Option String
  startdatetime : Int
  duration : Int
  enddatetime : Int
  password : Option String
  reminderTime : Int
  cohosts : List (String × String)
  panelists : List (String × String)
  id : Option String
deriving DecidableEq

/-- Model of `datetime.fromisoformat`: parses a non-empty digit string
into an integer timestamp (minutes), fails otherwise. -/
def parseDate (s : String) : Option Int :=
  if ¬ s.data = [] ∧ s.data.all Char.isDigit then
    some (Int.ofNat (s.data.foldl (fun n c => n * 10 + (c.toNat - 48)) 0))
  else none

/-- The row's explicit panelists, resolved through the Contact Resolver
(schedule.py lines 477-479). -/
def rowPanelists (cfg : Config) (row : Row) : List (String × String) :=
  stringContactsToDict cfg.nicknames (pyStr row.panelistsRaw)

/-- The configured always-invite panelist set, resolved through the
Contact Resolver (schedule.py lines 481-482). -/
def alwaysInvitePanelistsDict (cfg : Config) : List (String × String) :=
  stringContactsToDict cfg.nicknames (pyStr cfg.alwaysInvitePanelists)

/-- The row's title with the falsy fallback (schedule.py line 446). -/
def extractTitle (row : Row) : String :=
  match row.title with
  | some t => if t = "" then "Generic Webinar Title" else t
  | none => "Generic Webinar Title"

/-- `getWebinarProperty('duration') or 60` (schedule.py lines 451-452). -/
def resolveDuration (row : Row) : Int :=
  match row.durationRaw with
  | none => 60
  | some d => if d = 0 then 60 else d

/-- `getWebinarProperty('reminderTime') or 30` (schedule.py line 458). -/
def resolveReminder (row : Row) : Int :=
  match row.reminderTimeRaw with
  | none => 30
  | some r => if r = 0 then 30 else r

/-- The intent record assembled once the start timestamp has parsed
(schedule.py lines 446-485). -/
def buildIntent (cfg : Config) (row : Row) (start : Int) : Intent :=
  { title := extractTitle row
    agenda := row.agenda
    startdatetime := start
    duration := resolveDuration row
    enddatetime := start + resolveDuration row
    password := row.password
    reminderTime := if cfg.now ≥ start - resolveReminder row then 0
      else resolveReminder row
    cohosts := stringContactsToDict cfg.nicknames (pyStr row.cohostsRaw)
    panelists := dupdate (rowPanelists cfg row) (alwaysInvitePanelistsDict cfg)
    id := row.webinarId }

/-- The property-extraction block (schedule.py lines 446-489): assemble
the intent record, or fail row-scoped when the required start timestamp
is missing or unparsable.  Falsy values fall back to defaults exactly as
the `or`-chains do. -/
def extractIntent (cfg : Config) (row : Row) : Except String Intent :=
  match row.startdatetimeRaw with
  | none => Except.error ("Failed to process " ++ extractTitle row)
  | some s =>
    match parseDate s with
    | none => Except.error ("Failed to process " ++ extractTitle row)
    | some start => Except.ok (buildIntent cfg row start)

/-! ### Webinar Reconciler and Run Orchestrator
(schedule.py lines 438-599) -/

/-- The remote service state: existing webinars plus fresh-id counters
for the ids the service mints. -/
structure RemoteState where
  webinars : List Webinar
  nextMeetingNum : Nat
  nextInviteeNum : Nat
deriving DecidableEq

/-- The run-wide mutable state: remote state plus the registrant total. -/
structure RunState where
  remote : RemoteState
  totalRegistrantCount : Int
deriving DecidableEq

/-- Fresh webinar id minted by the remote service on create (any
injective scheme; kept kernel-computable). -/
def freshMeetingId (st : RemoteState) : String :=
  ⟨'W' :: List.replicate st.nextMeetingNum 'w'⟩

/-- Fresh invitee id minted by the remote service on invitee create. -/
def freshInviteeId (n : Nat) : String :=
  ⟨'I' :: List.replicate n 'i'⟩

/-- `webexApi.meetings.get` against the remote state. -/
def lookupWebinar (st : RemoteState) (i : String) : Option Webinar :=
  st.webinars.find? (fun w => w.id = i)

/-- Replace the webinar with the given id. -/
def updateWebinarIn (st : RemoteState) (i : String) (f : Webinar → Webinar) :
    RemoteState :=
  { st with webinars := st.webinars.map (fun w => if w.id = i then f w else w) }

/-- Python truthiness test `not event['id']` on the extracted webinar id:
missing or empty string. -/
def idFalsy : Option String → Bool
  | none => true
  | some s => s = ""

/-- `needUpdateSendEmail` (schedule.py lines 547-550): title, start or
end differ from the fetched remote webinar. -/
def needUpdateSendEmail (e : Intent) (w : Webinar) : Bool :=
  decide (¬ e.title = w.title) || decide (¬ e.startdatetime = w.start) ||
    decide (¬ e.enddatetime = w.endTime)

/-- `needUpdate` (schedule.py lines 552-554): `needUpdateSendEmail` or
agenda differs. -/
def needUpdate (e : Intent) (w : Webinar) : Bool :=
  needUpdateSendEmail e w || decide (¬ e.agenda = w.agenda)

/-- `event['password'] or w.password` in the update call
(schedule.py line 566). -/
def passwordOrRemote (e : Intent) (w : Webinar) : String :=
  match e.password with
  | some p => if p = "" then w.password else p
  | none => w.password

/-- Effect of one invitee create/update/delete call on a remote invitee
list (with the fresh-id counter threaded through). -/
def applyInviteeOp (acc : List RemoteInvitee × Nat) (c : Call) :
    List RemoteInvitee × Nat :=
  match c with
  | Call.inviteeCreate _ email name pl ch _ =>
    (acc.1 ++ [⟨freshInviteeId acc.2, email, name, pl, ch⟩], acc.2 + 1)
  | Call.inviteeUpdate iid email name pl ch _ =>
    (acc.1.map (fun i => if i.id = iid then
      { i with
        email := email
        displayName := name
        panelist := pl
        coHost := ch } else i), acc.2)
  | Call.inviteeDelete iid => (acc.1.filter (fun i => ¬ i.id = iid), acc.2)
  | _ => acc

/-- The invitee phase of one row: issue the diffing calls of
`processInvitees` and apply them to the remote state. -/
def inviteePhase (cfg : Config) (st : RemoteState) (e : Intent)
    (w : Webinar) : List Call × RemoteState :=
  let ops := processInvitees cfg.noCohosts w.id e.panelists e.cohosts
    w.invitees
  let r := ops.foldl applyInviteeOp (w.invitees, st.nextInviteeNum)
  (ops,
   { updateWebinarIn st w.id (fun ww => { ww with invitees := r.1 }) with
     nextInviteeNum := r.2 })

/-- The registrant-count refresh block (schedule.py lines 584-599):
count invitees, accumulate into the run-wide total, then attempt the
write-back; an unmapped registrant-count column raises a (caught)
column-mapping error before the commit, and a failed write-back is
logged.  The total is updated before either failure point and is never
rolled back. -/
def refreshRegistrantCount (registrantCountMapped writeBackOk : Bool)
    (totalRegistrantCount : Int) (listResult : Option (List RemoteInvitee))
    (wid : String) : Int × List Call :=
  match listResult with
  | none => (totalRegistrantCount,
      [Call.inviteesList wid,
       Call.logError "Failed to refresh webinar Registration Count"])
  | some invitees =>
    let registrantCount := invitees.length
    let total := totalRegistrantCount + (registrantCount : Int)
    if registrantCountMapped then
      if writeBackOk then
        (total, [Call.inviteesList wid,
          Call.rowSetRegistrantCount registrantCount, Call.rowCommit])
      else
        (total, [Call.inviteesList wid,
          Call.rowSetRegistrantCount registrantCount, Call.rowCommit,
          Call.logError "Failed to refresh webinar Registration Count"])
    else
      (total, [Call.inviteesList wid,
        Call.logError "Failed to refresh webinar Registration Count"])

/-- The webinar the remote service materializes on a successful create:
it echoes the submitted fields and mints id, host key, register link and
password. -/
def createdWebinar (rst : RunState) (e : Intent) : Webinar :=
  { id := freshMeetingId rst.remote, title := e.title, agenda := e.agenda,
    start := e.startdatetime, endTime := e.enddatetime,
    password := (match e.password with
      | some p => if p = "" then "generated" else p
      | none => "generated"),
    hostKey := "HK-" ++ freshMeetingId rst.remote,
    registerLink := "RL-" ++ freshMeetingId rst.remote, invitees := [] }

/-- The Absent branch (schedule.py lines 491-540): create the webinar,
write id / host key / attendee URL back to the row, then reconcile
invitees. -/
def createPath (cfg : Config) (rst : RunState) (row : Row) (e : Intent) :
    List Call × RunState × Row :=
  let wid := freshMeetingId rst.remote
  let w : Webinar := createdWebinar rst e
  let createCalls := [Call.meetingsCreate e.title e.agenda e.startdatetime
    e.enddatetime e.reminderTime]
  let writeBack :=
    [Call.rowSetProperty "webinarId" wid]
    ++ (if cfg.hostKeyMapped then [Call.rowSetProperty "hostKey" w.hostKey]
        else [])
    ++ (if cfg.attendeeUrlMapped then
          [Call.rowSetProperty "attendeeUrl" w.registerLink] else [])
    ++ [Call.rowCommit]
  let st1 : RemoteState :=
    { rst.remote with
      webinars := rst.remote.webinars ++ [w]
      nextMeetingNum := rst.remote.nextMeetingNum + 1 }
  let r := inviteePhase cfg st1 e w
  (createCalls ++ writeBack ++ r.1, ⟨r.2, rst.totalRegistrantCount⟩,
   { row with webinarId := some wid })

/-- The Present branch (schedule.py lines 542-599 plus the invitee
phase): fetch the remote webinar, conditionally update it, refresh the
registrant count, then reconcile invitees.  A failed fetch is logged and
ends the row. -/
def presentPath (cfg : Config) (rst : RunState) (row : Row) (e : Intent)
    (wid : String) : List Call × RunState × Row :=
  match lookupWebinar rst.remote wid with
  | none =>
    ([Call.meetingsGet wid,
      Call.logError ("Failed to update webinar " ++ e.title)], rst, row)
  | some w =>
    let w1 := if needUpdate e w then
        { w with
          title := e.title
          agenda := e.agenda
          start := e.startdatetime
          endTime := e.enddatetime
          password := passwordOrRemote e w }
      else w
    let updCalls := if needUpdate e w then
        [Call.meetingsUpdate wid e.title e.agenda e.startdatetime
          e.enddatetime (passwordOrRemote e w) (needUpdateSendEmail e w)]
      else []
    let st1 := updateWebinarIn rst.remote wid (fun _ => w1)
    let refresh := refreshRegistrantCount cfg.registrantCountMapped true
      rst.totalRegistrantCount (some w1.invitees) wid
    let r := inviteePhase cfg st1 e w1
    ([Call.meetingsGet wid] ++ updCalls ++ refresh.2 ++ r.1,
     ⟨r.2, refresh.1⟩, row)

/-- One row of the main loop (schedule.py lines 438-663): skip rows not
marked for creation, fail row-scoped on invalid properties, then branch
on externalId presence. -/
def processRow (cfg : Config) (rst : RunState) (row : Row) :
    List Call × RunState × Row :=
  if row.create then
    match extractIntent cfg row with
    | Except.error msg => ([Call.logError msg], rst, row)
    | Except.ok e =>
      if idFalsy e.id then createPath cfg rst row e
      else presentPath cfg rst row e (e.id.getD "")
  else ([], rst, row)

/-- The full pass over the row list, returning one trace per row, the
final state and the written-back rows. -/
def runPass (cfg : Config) : RunState → List Row →
    List (List Call) × RunState × List Row
  | rst, [] => ([], rst, [])
  | rst, row :: rest =>
    let r1 := processRow cfg rst row
    let r2 := runPass cfg r1.2.1 rest
    (r1.1 :: r2.1, r2.2.1, r1.2.2 :: r2.2.2)

/-! ### Trace observation helpers -/

/-- Number of calls in a trace satisfying a predicate. -/
def countCalls (ops : List Call) (f : Call → Bool) : Nat :=
  (ops.filter f).length

/-- Is the call a `meetings.create`? -/
def isMeetingsCreate : Call → Bool
  | Call.meetingsCreate _ _ _ _ _ => true
  | _ => false

/-- Is the call a `meetings.get`? -/
def isMeetingsGet : Call → Bool
  | Call.meetingsGet _ => true
  | _ => false

/-- Is the call a `meetings.update`? -/
def isMeetingsUpdate : Call → Bool
  | Call.meetingsUpdate _ _ _ _ _ _ _ => true
  | _ => false

/-- Is the call an invitee create/update/delete? -/
def isInviteeOpCall : Call → Bool
  | Call.inviteeCreate _ _ _ _ _ _ => true
  | Call.inviteeUpdate _ _ _ _ _ _ => true
  | Call.inviteeDelete _ => true
  | _ => false

/-- Is the call any remote webinar/invitee API call? -/
def isRemoteCall : Call → Bool
  | Call.meetingsCreate _ _ _ _ _ => true
  | Call.meetingsGet _ => true
  | Call.meetingsUpdate _ _ _ _ _ _ _ => true
  | Call.inviteesList _ => true
  | Call.inviteeCreate _ _ _ _ _ _ => true
  | Call.inviteeUpdate _ _ _ _ _ _ => true
  | Call.inviteeDelete _ => true
  | _ => false

/-- Is the call an invitee update for the given email? -/
def isInviteeUpdateFor (email : String) : Call → Bool
  | Call.inviteeUpdate _ e _ _ _ _ => e = email
  | _ => false

/-- Is the call an invitee create for the given email? -/
def isInviteeCreateFor (email : String) : Call → Bool
  | Call.inviteeCreate _ e _ _ _ _ => e = email
  | _ => false

/-- Is the call an invitee delete for the given invitee id? -/
def isInviteeDeleteFor (iid : String) : Call → Bool
  | Call.inviteeDelete i => i = iid
  | _ => false

/-- Specification artifact for the diffing loop: the single operation the
loop body issues for one desired `(email, name)` pair against a fixed
uninvite-candidate set. -/
def inviteeOpFor (mid : String) (panelists cohosts : List (String × String))
    (cur : List (String × RemoteInvitee)) (p : String × String) :
    Option Call :=
  match alookup cur p.1 with
  | some inv =>
    if ¬ p.2 = inv.displayName ∨ ¬ amem cohosts p.1 = inv.coHost then
      some (Call.inviteeUpdate inv.id p.1 p.2
        (amem panelists p.1 || amem cohosts p.1) (amem cohosts p.1) true)
    else none
  | none =>
    some (Call.inviteeCreate mid p.1 p.2
      (amem panelists p.1 || amem cohosts p.1) (amem cohosts p.1) true)

/-! ### Concrete fixtures used by witnesses and counterexamples -/

/-- Concrete configuration for the witness scenarios. -/
def exCfgC2 : Config :=
  { now := 0, nicknames := [], alwaysInvitePanelists := none,
    noCohosts := false, hostKeyMapped := true, attendeeUrlMapped := true,
    registrantCountMapped := true }

/-- Concrete row for the C2 witness scenario: agenda differs from the
remote, everything else matches. -/
def exRowC2 : Row :=
  { create := true, title := some "T", agenda := some "New agenda",
    startdatetimeRaw := some "1000", durationRaw := none, timezone := none,
    password := none, reminderTimeRaw := none, cohostsRaw := none,
    panelistsRaw := none, webinarId := some "W" }

/-- The intent extracted from `exRowC2`. -/
def exIntentC2 : Intent :=
  { title := "T", agenda := some "New agenda", startdatetime := 1000,
    duration := 60, enddatetime := 1060, password := none,
    reminderTime := 30, cohosts := [], panelists := [], id := some "W" }

/-- The remote webinar for the C2 witness scenario: identical title,
start and end; older agenda. -/
def exWebinarC2 : Webinar :=
  { id := "W", title := "T", agenda := some "Old agenda", start := 1000,
    endTime := 1060, password := "pw", hostKey := "hk", registerLink := "rl",
    invitees := [] }

/-- Concrete run state for the C2 witness scenario. -/
def exRstC2 : RunState :=
  { remote := { webinars := [exWebinarC2]
                nextMeetingNum := 0
                nextInviteeNum := 0 }
    totalRegistrantCount := 0 }

/-- A row whose start timestamp does not parse, used by the C9 witness. -/
def exBadRow : Row :=
  { create := true, title := some "Bad", agenda := none,
    startdatetimeRaw := some "not-a-date", durationRaw := none,
    timezone := none, password := none, reminderTimeRaw := none,
    cohostsRaw := none, panelistsRaw := none, webinarId := none }

/-- Configuration for the C7 witness: the always-invite set names
`jane@x.com` as `Jane Doe`. -/
def exCfgC7 : Config :=
  { now := 0, nicknames := [], alwaysInvitePanelists :=
      some "Jane Doe <jane@x.com>",
    noCohosts := false, hostKeyMapped := true, attendeeUrlMapped := true,
    registrantCountMapped := true }

/-- Row for the C7 witness: the row names the same email with a
different display name. -/
def exRowC7 : Row :=
  { create := true, title := some "T", agenda := none,
    startdatetimeRaw := some "1000", durationRaw := none, timezone := none,
    password := none, reminderTimeRaw := none, cohostsRaw := none,
    panelistsRaw := some "Jane Original <jane@x.com>", webinarId := none }

/-- The intent extracted from `exRowC7` under `exCfgC7`: the
always-invite name wins. -/
def exIntentC7 : Intent :=
  { title := "T", agenda := none, startdatetime := 1000, duration := 60,
    enddatetime := 1060, password := none, reminderTime := 30,
    cohosts := [], panelists := [("jane@x.com", "Jane Doe")], id := none }

/-- A fresh row (no externalId) used by the C4 scenario. -/
def exRowC4 : Row :=
  { create := true, title := some "T", agenda := none,
    startdatetimeRaw := some "1000", durationRaw := none, timezone := none,
    password := none, reminderTimeRaw := none, cohostsRaw := none,
    panelistsRaw := none, webinarId := none }

/-- The intent extracted from `exRowC4`. -/
def exIntentC4 : Intent :=
  { title := "T", agenda := none, startdatetime := 1000, duration := 60,
    enddatetime := 1060, password := none, reminderTime := 30,
    cohosts := [], panelists := [], id := none }

/-- The empty remote state. -/
def exRst0 : RunState :=
  { remote := { webinars := []
                nextMeetingNum := 0
                nextInviteeNum := 0 }
    totalRegistrantCount := 0 }

/-- Remote invitee fixture: a panelist whose display name is stale. -/
def exInvA : RemoteInvitee :=
  { id := "i1", email := "a@x.com", displayName := "A", panelist := true,
    coHost := false }

/-- Remote invitee fixture: a co-host no longer in the desired set. -/
def exInvD : RemoteInvitee :=
  { id := "i2", email := "d@x.com", displayName := "D", panelist := false,
    coHost := true }

/-! ## Theorems -/

/-! ### Dict lemmas -/

theorem alookup_nil {α : Type} (k : String) :
    alookup ([] : List (String × α)) k = none := rfl

theorem alookup_cons {α : Type} (p : String × α) (m : List (String × α))
    (k : String) :
    alookup (p :: m) k = if p.1 = k then some p.2 else alookup m k := by
  simp only [alookup, List.find?_cons]
  by_cases h : p.1 = k
  · simp [h]
  · simp [h]

theorem amem_nil {α : Type} (k : String) :
    amem ([] : List (String × α)) k = false := rfl

theorem amem_cons {α : Type} (p : String × α) (m : List (String × α))
    (k : String) :
    amem (p :: m) k = (decide (p.1 = k) || amem m k) := by
  simp [amem, List.any_cons]

theorem amem_append {α : Type} (m1 m2 : List (String × α)) (k : String) :
    amem (m1 ++ m2) k = (amem m1 k || amem m2 k) := by
  simp [amem, List.any_append]

theorem amem_eq_false_iff {α : Type} (m : List (String × α)) (k : String) :
    amem m k = false ↔ ∀ p ∈ m, p.1 ≠ k := by
  simp [amem, List.any_eq_true]

theorem amem_eq_true_iff {α : Type} (m : List (String × α)) (k : String) :
    amem m k = true ↔ ∃ p ∈ m, p.1 = k := by
  simp [amem, List.any_eq_true]

theorem alookup_eq_none_of_not_mem {α : Type} (m : List (String × α))
    (k : String) (h : amem m k = false) : alookup m k = none := by
  induction m with
  | nil => rfl
  | cons p t ih =>
    rw [amem_cons, Bool.or_eq_false_iff] at h
    rw [alookup_cons, if_neg (by simpa using h.1)]
    exact ih h.2

theorem amem_of_alookup_eq_some {α : Type} (m : List (String × α))
    (k : String) (v : α) (h : alookup m k = some v) : amem m k = true := by
  by_cases hm : amem m k = true
  · exact hm
  · rw [alookup_eq_none_of_not_mem m k (by simpa using hm)] at h
    cases h

theorem alookup_ainsert_self {α : Type} (m : List (String × α))
    (k : String) (v : α) : alookup (ainsert m k v) k = some v := by
  induction m with
  | nil => simp [ainsert, alookup_cons]
  | cons p t ih =>
    unfold ainsert
    by_cases h : p.1 = k
    · rw [if_pos h, alookup_cons]
      simp
    · rw [if_neg h, alookup_cons, if_neg h]
      exact ih

theorem alookup_ainsert_ne {α : Type} (m : List (String × α))
    (k j : String) (v : α) (hne : j ≠ k) :
    alookup (ainsert m k v) j = alookup m j := by
  induction m with
  | nil =>
    simp only [ainsert, alookup_cons, alookup_nil]
    rw [if_neg (fun h => hne h.symm)]
  | cons p t ih =>
    unfold ainsert
    by_cases h : p.1 = k
    · rw [if_pos h, alookup_cons, alookup_cons]
      simp only
      rw [if_neg (fun hkj => hne hkj.symm), if_neg (h ▸ fun hpj => hne hpj.symm)]
    · rw [if_neg h, alookup_cons, alookup_cons]
      by_cases hpj : p.1 = j
      · rw [if_pos hpj, if_pos hpj]
      · rw [if_neg hpj, if_neg hpj]
        exact ih

theorem amem_ainsert {α : Type} (m : List (String × α)) (k j : String)
    (v : α) : amem (ainsert m k v) j = (decide (k = j) || amem m j) := by
  induction m with
  | nil => simp [ainsert, amem_cons]
  | cons p t ih =>
    unfold ainsert
    by_cases h : p.1 = k
    · rw [if_pos h]
      simp only [amem_cons, h]
      cases hd : decide (k = j) <;> simp [hd]
    · rw [if_neg h]
      simp only [amem_cons, ih]
      cases hd : decide (p.1 = j) <;> cases hd2 : decide (k = j) <;>
        simp [hd, hd2]

theorem akeys_ainsert_of_mem {α : Type} (m : List (String × α))
    (k : String) (v : α) (h : amem m k = true) :
    akeys (ainsert m k v) = akeys m := by
  induction m with
  | nil => simp [amem] at h
  | cons p t ih =>
    rw [amem_cons] at h
    unfold ainsert
    by_cases hp : p.1 = k
    · rw [if_pos hp]
      simp [akeys, hp]
    · rw [if_neg hp]
      have ht : amem t k = true := by
        rcases Bool.or_eq_true_iff.1 h with h1 | h1
        · exact absurd (of_decide_eq_true h1) hp
        · exact h1
      have h2 := ih ht
      simp only [akeys, List.map_cons] at h2 ⊢
      rw [h2]

theorem akeys_ainsert_of_not_mem {α : Type} (m : List (String × α))
    (k : String) (v : α) (h : amem m k = false) :
    akeys (ainsert m k v) = akeys m ++ [k] := by
  induction m with
  | nil => simp [ainsert, akeys]
  | cons p t ih =>
    rw [amem_cons, Bool.or_eq_false_iff] at h
    unfold ainsert
    rw [if_neg (by simpa using h.1)]
    have h2 := ih h.2
    simp only [akeys, List.map_cons] at h2 ⊢
    rw [h2]
    rfl

theorem nodup_akeys_ainsert {α : Type} (m : List (String × α))
    (k : String) (v : α) (h : (akeys m).Nodup) :
    (akeys (ainsert m k v)).Nodup := by
  by_cases hm : amem m k = true
  · rw [akeys_ainsert_of_mem m k v hm]
    exact h
  · have hm2 : amem m k = false := by simpa using hm
    rw [akeys_ainsert_of_not_mem m k v hm2]
    rw [List.nodup_append]
    refine ⟨h, List.nodup_singleton k, ?_⟩
    intro a ha hb
    rw [List.mem_singleton] at hb
    subst hb
    rw [amem_eq_false_iff] at hm2
    rcases List.mem_map.1 ha with ⟨p, hp, hpa⟩
    exact hm2 p hp hpa

theorem nodup_akeys_dupdate {α : Type} (m1 m2 : List (String × α))
    (h : (akeys m1).Nodup) : (akeys (dupdate m1 m2)).Nodup := by
  induction m2 generalizing m1 with
  | nil => exact h
  | cons p t ih =>
    unfold dupdate
    rw [List.foldl_cons]
    exact ih (ainsert m1 p.1 p.2) (nodup_akeys_ainsert m1 p.1 p.2 h)

theorem amem_dupdate {α : Type} (m1 m2 : List (String × α)) (k : String) :
    amem (dupdate m1 m2) k = (amem m1 k || amem m2 k) := by
  induction m2 generalizing m1 with
  | nil => simp [dupdate, amem_nil]
  | cons p t ih =>
    unfold dupdate
    rw [List.foldl_cons]
    have h2 := ih (ainsert m1 p.1 p.2)
    unfold dupdate at h2
    rw [h2, amem_ainsert, amem_cons]
    cases h1 : amem m1 k <;> cases hd : decide (p.1 = k) <;> simp [h1, hd]

theorem alookup_dupdate_of_not_mem {α : Type} (m1 m2 : List (String × α))
    (k : String) (h : amem m2 k = false) :
    alookup (dupdate m1 m2) k = alookup m1 k := by
  induction m2 generalizing m1 with
  | nil => rfl
  | cons p t ih =>
    rw [amem_cons, Bool.or_eq_false_iff] at h
    unfold dupdate
    rw [List.foldl_cons]
    have h2 := ih (ainsert m1 p.1 p.2) h.2
    unfold dupdate at h2
    rw [h2, alookup_ainsert_ne]
    intro hk
    exact absurd (by simpa using hk.symm) (by simpa using h.1)

theorem alookup_dupdate_of_mem {α : Type} (m1 m2 : List (String × α))
    (k : String) (hnd : (akeys m2).Nodup) (h : amem m2 k = true) :
    alookup (dupdate m1 m2) k = alookup m2 k := by
  induction m2 generalizing m1 with
  | nil => simp [amem] at h
  | cons p t ih =>
    unfold dupdate
    rw [List.foldl_cons, alookup_cons]
    rw [akeys, List.map_cons, List.nodup_cons] at hnd
    by_cases hp : p.1 = k
    · rw [if_pos hp]
      have ht : amem t k = false := by
        rw [amem_eq_false_iff]
        intro q hq hqk
        exact hnd.1 (by rw [← hp] at hqk; exact hqk ▸ List.mem_map_of_mem Prod.fst hq)
      have h3 := alookup_dupdate_of_not_mem (ainsert m1 p.1 p.2) t k ht
      unfold dupdate at h3
      rw [h3, hp, alookup_ainsert_self]
    · rw [if_neg hp]
      have ht : amem t k = true := by
        rcases Bool.or_eq_true_iff.1 (by rw [amem_cons] at h; exact h) with h1 | h1
        · exact absurd (of_decide_eq_true h1) hp
        · exact h1
      exact ih (ainsert m1 p.1 p.2) hnd.2 ht

theorem alookup_aerase_ne {α : Type} (m : List (String × α))
    (k j : String) (hne : j ≠ k) : alookup (aerase m k) j = alookup m j := by
  induction m with
  | nil => rfl
  | cons p t ih =>
    unfold aerase
    rw [List.filter_cons]
    by_cases hp : p.1 = k
    · rw [if_neg (by simp [hp])]
      rw [alookup_cons, if_neg (fun h : p.1 = j => hne (h ▸ hp))]
      exact ih
    · rw [if_pos (by simp [hp]), alookup_cons, alookup_cons]
      by_cases hpj : p.1 = j
      · rw [if_pos hpj, if_pos hpj]
      · rw [if_neg hpj, if_neg hpj]
        exact ih

theorem aerase_of_not_mem {α : Type} (m : List (String × α)) (k : String)
    (h : amem m k = false) : aerase m k = m := by
  rw [amem_eq_false_iff] at h
  unfold aerase
  rw [List.filter_eq_self]
  intro p hp
  simpa using h p hp

theorem mem_of_alookup_eq_some {α : Type} (m : List (String × α))
    (k : String) (v : α) (h : alookup m k = some v) : (k, v) ∈ m := by
  induction m with
  | nil => cases h
  | cons p t ih =>
    rw [alookup_cons] at h
    by_cases hp : p.1 = k
    · rw [if_pos hp] at h
      have : p = (k, v) := by
        cases p
        simp only at hp
        simp only [Option.some.injEq] at h
        simp [hp, h]
      exact this ▸ List.mem_cons_self p t
    · rw [if_neg hp] at h
      exact List.mem_cons_of_mem p (ih h)

/-! ### Contact Resolver lemmas -/

theorem nodup_akeys_contactStep (nicknames : List (String × String × String))
    (res : List (String × String)) (c : String × String)
    (h : (akeys res).Nodup) : (akeys (contactStep nicknames res c)).Nodup := by
  unfold contactStep
  by_cases hc : strContains c.2 '@'
  · rw [if_pos hc]
    exact nodup_akeys_ainsert _ _ _ h
  · rw [if_neg hc]
    cases alookup nicknames (strToLower (strTrim c.2)) with
    | none => exact h
    | some en => exact nodup_akeys_ainsert _ _ _ h

theorem nodup_akeys_contactsFold_aux
    (nicknames : List (String × String × String))
    (pairs : List (String × String)) :
    ∀ acc : List (String × String), (akeys acc).Nodup →
      (akeys (pairs.foldl (contactStep nicknames) acc)).Nodup := by
  induction pairs with
  | nil => intro acc h; exact h
  | cons c rest ih =>
    intro acc h
    rw [List.foldl_cons]
    exact ih _ (nodup_akeys_contactStep nicknames acc c h)

theorem nodup_akeys_stringContactsToDict
    (nicknames : List (String × String × String)) (contacts : String) :
    (akeys (stringContactsToDict nicknames contacts)).Nodup :=
  nodup_akeys_contactsFold_aux nicknames _ [] List.nodup_nil

/-! ### Claim C5: Column Mapper failure condition -/

/-- Claim C5: Column Mapper failure condition.  After applying operator
overrides to the built-in default table and resolving each display name
against the source's column set (unmatched entries omitted),
initialization fails with a column-mapping error if and only if the set
`(create, startdatetime, title, webinarId)` minus the mapped logical keys
is non-empty, the error names exactly the missing logical names, and in
particular a source missing the display name for `webinarId` fails naming
`webinarId`. -/
theorem C5_column_mapper_failure :
    (∀ overrides sourceFields : List (String × String),
      ((∃ l, initSharepointColumnMapping overrides sourceFields = Except.error l) ↔
        ∃ c ∈ requiredColumns,
          amem (buildSpColumnMap (dupdate defaultSharepointColumns overrides)
            (buildColumnsDict sourceFields)) c = false)
      ∧ ∀ l, initSharepointColumnMapping overrides sourceFields = Except.error l →
          ∀ c, c ∈ l ↔ (c ∈ requiredColumns ∧
            amem (buildSpColumnMap (dupdate defaultSharepointColumns overrides)
              (buildColumnsDict sourceFields)) c = false))
    ∧ initSharepointColumnMapping []
        [("Create", "c1"), ("Start Date and Time", "c2"), ("Title", "c3"),
         ("Duration", "c4"), ("Agenda", "c5"), ("Cohosts", "c6"),
         ("Panelists", "c7"), ("Attendee URL", "c8"), ("Host Key", "c9"),
         ("Registrant Count", "c10")] = Except.error ["webinarId"] := by
  refine ⟨?_, rfl⟩
  intro overrides sourceFields
  set m := buildSpColumnMap (dupdate defaultSharepointColumns overrides)
    (buildColumnsDict sourceFields) with hm
  constructor
  · constructor
    · rintro ⟨l, hl⟩
      unfold initSharepointColumnMapping at hl
      rw [← hm] at hl
      by_cases hd : columnsDiff m = []
      · rw [if_pos hd] at hl
        cases hl
      · rcases List.exists_mem_of_ne_nil _ hd with ⟨c, hc⟩
        unfold columnsDiff at hc
        rcases List.mem_filter.1 hc with ⟨hcr, hcp⟩
        exact ⟨c, hcr, by simpa using hcp⟩
    · rintro ⟨c, hcr, hcm⟩
      refine ⟨columnsDiff m, ?_⟩
      unfold initSharepointColumnMapping
      rw [← hm]
      have hd : columnsDiff m ≠ [] := by
        intro hnil
        have hcmem : c ∈ columnsDiff m := by
          unfold columnsDiff
          exact List.mem_filter.2 ⟨hcr, by simpa using hcm⟩
        rw [hnil] at hcmem
        cases hcmem
      rw [if_neg hd]
  · intro l hl c
    unfold initSharepointColumnMapping at hl
    rw [← hm] at hl
    by_cases hd : columnsDiff m = []
    · rw [if_pos hd] at hl
      cases hl
    · rw [if_neg hd] at hl
      have hle : l = columnsDiff m := by
        cases hl
        rfl
      subst hle
      unfold columnsDiff
      rw [List.mem_filter]
      constructor
      · rintro ⟨h1, h2⟩
        exact ⟨h1, by simpa using h2⟩
      · rintro ⟨h1, h2⟩
        exact ⟨h1, by simpa using h2⟩

/-- Witness for C5 at a concrete source missing the `webinarId` display
name: the error list contains `webinarId` and the required-column test
confirms it is unmapped. -/
theorem C5_column_mapper_failure_witness :
    "webinarId" ∈ requiredColumns ∧
      amem (buildSpColumnMap
        (dupdate defaultSharepointColumns ([] : List (String × String)))
        (buildColumnsDict
          [("Create", "c1"), ("Start Date and Time", "c2"), ("Title", "c3"),
           ("Duration", "c4"), ("Agenda", "c5"), ("Cohosts", "c6"),
           ("Panelists", "c7"), ("Attendee URL", "c8"), ("Host Key", "c9"),
           ("Registrant Count", "c10")])) "webinarId" = false :=
  ((C5_column_mapper_failure.1 []
      [("Create", "c1"), ("Start Date and Time", "c2"), ("Title", "c3"),
       ("Duration", "c4"), ("Agenda", "c5"), ("Cohosts", "c6"),
       ("Panelists", "c7"), ("Attendee URL", "c8"), ("Host Key", "c9"),
       ("Registrant Count", "c10")]).2 ["webinarId"] rfl
    "webinarId").mp (by decide)

/-! ### Claim C6: concrete-contact semantics of the Contact Resolver -/

theorem contactsFold_lookup_aux (nicknames : List (String × String × String))
    (n a : String) (ha : strContains a '@' = true) :
    ∀ (pairs : List (String × String)) (acc : List (String × String)),
      (∀ p ∈ pairs, strContains p.2 '@' = true →
        strToLower (strTrim p.2) = strToLower (strTrim a) → p = (n, a)) →
      (∀ q ∈ nicknames, q.2.1 ≠ strToLower (strTrim a)) →
      ((n, a) ∈ pairs ∨ alookup acc (strToLower (strTrim a)) =
        some (if strTrim n = "" then "Panelist" else strTrim n)) →
      alookup (pairs.foldl (contactStep nicknames) acc)
          (strToLower (strTrim a)) =
        some (if strTrim n = "" then "Panelist" else strTrim n) := by
  intro pairs
  induction pairs with
  | nil =>
    intro acc _ _ hse
    rcases hse with h | h
    · cases h
    · exact h
  | cons c rest ih =>
    intro acc hOther hNick hse
    rw [List.foldl_cons]
    by_cases hc : c = (n, a)
    · refine ih _ (fun p hp h1 h2 => hOther p (List.mem_cons_of_mem c hp) h1 h2)
        hNick (Or.inr ?_)
      subst hc
      unfold contactStep
      rw [if_pos ha]
      exact alookup_ainsert_self _ _ _
    · have hpres : alookup (contactStep nicknames acc c)
          (strToLower (strTrim a)) = alookup acc (strToLower (strTrim a)) := by
        unfold contactStep
        by_cases hat : strContains c.2 '@' = true
        · rw [if_pos hat]
          apply alookup_ainsert_ne
          intro heq
          exact hc (hOther c (List.mem_cons_self c rest) hat heq.symm)
        · rw [if_neg hat]
          cases hl : alookup nicknames (strToLower (strTrim c.2)) with
          | none => rfl
          | some en =>
            apply alookup_ainsert_ne
            intro heq
            exact hNick (strToLower (strTrim c.2), en)
              (mem_of_alookup_eq_some _ _ _ hl) heq.symm
      refine ih _ (fun p hp h1 h2 => hOther p (List.mem_cons_of_mem c hp) h1 h2)
        hNick ?_
      rcases hse with hmem | hacc
      · rcases List.mem_cons.1 hmem with h | h
        · exact absurd h.symm hc
        · exact Or.inl h
      · exact Or.inr (hpres ▸ hacc)

/-- Claim C6: Contact Resolver concrete-contact semantics.  Every parsed
`(name, address)` pair whose address contains an `@` keys the lowercased,
trimmed address to the trimmed name (with `"Panelist"` substituted for an
empty name) in the resulting map — provided no other parsed pair and no
nickname-table entry competes for the same key — and the input
`"Jane Doe <jane@x.com>, bob@y.com"` resolves to the map
`jane@x.com -> Jane Doe, bob@y.com -> Panelist`. -/
theorem C6_contact_resolver :
    stringContactsToDict [] "Jane Doe <jane@x.com>, bob@y.com" =
      [("jane@x.com", "Jane Doe"), ("bob@y.com", "Panelist")]
    ∧ ∀ (nicknames : List (String × String × String))
        (pairs : List (String × String)) (n a : String),
        (n, a) ∈ pairs →
        strContains a '@' = true →
        (∀ p ∈ pairs, strContains p.2 '@' = true →
          strToLower (strTrim p.2) = strToLower (strTrim a) → p = (n, a)) →
        (∀ q ∈ nicknames, q.2.1 ≠ strToLower (strTrim a)) →
        alookup (contactsFold nicknames pairs) (strToLower (strTrim a)) =
          some (if strTrim n = "" then "Panelist" else strTrim n) := by
  constructor
  · decide
  · intro nicknames pairs n a hmem ha hOther hNick
    exact contactsFold_lookup_aux nicknames n a ha pairs [] hOther hNick
      (Or.inl hmem)

/-- Witness for C6: the universal part applied to the parsed pairs of the
concrete example resolves `jane@x.com` to `Jane Doe`. -/
theorem C6_contact_resolver_witness :
    alookup (contactsFold []
        [("Jane Doe", "jane@x.com"), ("", "bob@y.com")])
      (strToLower (strTrim "jane@x.com")) =
      some (if strTrim "Jane Doe" = "" then "Panelist"
            else strTrim "Jane Doe") :=
  C6_contact_resolver.2 [] [("Jane Doe", "jane@x.com"), ("", "bob@y.com")]
    "Jane Doe" "jane@x.com" (by decide) (by decide)
    (by decide) (by intro q hq; cases hq)

/-! ### Trace counting lemmas -/

theorem countCalls_nil (f : Call → Bool) : countCalls [] f = 0 := rfl

theorem countCalls_append (a b : List Call) (f : Call → Bool) :
    countCalls (a ++ b) f = countCalls a f + countCalls b f := by
  simp [countCalls, List.filter_append]

theorem countCalls_cons (c : Call) (l : List Call) (f : Call → Bool) :
    countCalls (c :: l) f =
      (if f c = true then 1 else 0) + countCalls l f := by
  by_cases h : f c = true
  · simp [countCalls, List.filter_cons, h, Nat.add_comm]
  · simp [countCalls, List.filter_cons, h]

theorem countCalls_eq_zero_of_all_not (l : List Call) (f : Call → Bool)
    (h : ∀ c ∈ l, f c = false) : countCalls l f = 0 := by
  unfold countCalls
  rw [List.filter_eq_nil_iff.mpr (fun c hc => by simp [h c hc])]
  rfl

theorem isMeetingsCreate_false_of_inviteeOp (c : Call)
    (h : isInviteeOpCall c = true) : isMeetingsCreate c = false := by
  cases c <;> simp_all [isInviteeOpCall, isMeetingsCreate]

theorem isMeetingsGet_false_of_inviteeOp (c : Call)
    (h : isInviteeOpCall c = true) : isMeetingsGet c = false := by
  cases c <;> simp_all [isInviteeOpCall, isMeetingsGet]

theorem isMeetingsUpdate_false_of_inviteeOp (c : Call)
    (h : isInviteeOpCall c = true) : isMeetingsUpdate c = false := by
  cases c <;> simp_all [isInviteeOpCall, isMeetingsUpdate]

/-! ### The invitee diffing loop only issues invitee calls -/

theorem inviteeStep_fold_all_inviteeOp (mid : String)
    (panelists cohosts : List (String × String)) :
    ∀ (ds : List (String × String))
      (acc : List Call × List (String × RemoteInvitee)),
      (∀ c ∈ acc.1, isInviteeOpCall c = true) →
      ∀ c ∈ (ds.foldl (inviteeStep mid panelists cohosts) acc).1,
        isInviteeOpCall c = true := by
  intro ds
  induction ds with
  | nil => intro acc hacc c hc; exact hacc c hc
  | cons p rest ih =>
    intro acc hacc c hc
    rw [List.foldl_cons] at hc
    refine ih (inviteeStep mid panelists cohosts acc p) ?_ c hc
    intro c2 hc2
    unfold inviteeStep at hc2
    cases hl : alookup acc.2 p.1 with
    | some inv =>
      rw [hl] at hc2
      simp only at hc2
      by_cases hcond : ¬ p.2 = inv.displayName ∨ ¬ amem cohosts p.1 = inv.coHost
      · rw [if_pos hcond] at hc2
        rcases List.mem_append.1 hc2 with h | h
        · exact hacc c2 h
        · rw [List.mem_singleton] at h
          subst h
          rfl
      · rw [if_neg hcond] at hc2
        exact hacc c2 hc2
    | none =>
      rw [hl] at hc2
      simp only at hc2
      rcases List.mem_append.1 hc2 with h | h
      · exact hacc c2 h
      · rw [List.mem_singleton] at h
        subst h
        rfl

theorem reconcileInvitees_all_inviteeOp (mid : String)
    (panelists cohosts : List (String × String))
    (cur : List (String × RemoteInvitee)) :
    ∀ c ∈ reconcileInvitees mid panelists cohosts cur,
      isInviteeOpCall c = true := by
  intro c hc
  unfold reconcileInvitees at hc
  rcases List.mem_append.1 hc with h | h
  · exact inviteeStep_fold_all_inviteeOp mid panelists cohosts _ ([], cur)
      (fun c2 hc2 => absurd hc2 (List.not_mem_nil c2)) c h
  · rcases List.mem_map.1 h with ⟨q, _, hq⟩
    subst hq
    rfl

theorem processInvitees_counts (noCohosts : Bool) (mid : String)
    (panelists cohosts : List (String × String))
    (remote : List RemoteInvitee) (f : Call → Bool)
    (hList : f (Call.inviteesList mid) = false)
    (hOp : ∀ c, isInviteeOpCall c = true → f c = false) :
    countCalls (processInvitees noCohosts mid panelists cohosts remote) f = 0 := by
  unfold processInvitees
  apply countCalls_eq_zero_of_all_not
  intro c hc
  rcases List.mem_cons.1 hc with h | h
  · subst h
    exact hList
  · exact hOp c (reconcileInvitees_all_inviteeOp _ _ _ _ c h)

/-! ### The registrant-count refresh only issues the listing call -/

theorem refreshRegistrantCount_counts (mapped ok : Bool) (total : Int)
    (lr : Option (List RemoteInvitee)) (wid : String) (f : Call → Bool)
    (hList : f (Call.inviteesList wid) = false)
    (hSet : ∀ n, f (Call.rowSetRegistrantCount n) = false)
    (hCommit : f Call.rowCommit = false)
    (hLog : ∀ m, f (Call.logError m) = false) :
    countCalls (refreshRegistrantCount mapped ok total lr wid).2 f = 0 := by
  unfold refreshRegistrantCount
  cases lr with
  | none => simp [countCalls_cons, hList, hLog, countCalls_nil]
  | some invitees =>
    cases mapped <;> cases ok <;>
      simp [countCalls_cons, hList, hSet, hCommit, hLog, countCalls_nil]

theorem countCalls_zero_iff_filter_nil (l : List Call) (f : Call → Bool) :
    countCalls l f = 0 ↔ l.filter f = [] := by
  simp [countCalls, List.length_eq_zero]

/-! ### Path-level trace lemmas -/

theorem createPath_trace (cfg : Config) (rst : RunState) (row : Row)
    (e : Intent) :
    (createPath cfg rst row e).1 =
      [Call.meetingsCreate e.title e.agenda e.startdatetime e.enddatetime
        e.reminderTime]
      ++ ([Call.rowSetProperty "webinarId" (freshMeetingId rst.remote)]
          ++ (if cfg.hostKeyMapped then
                [Call.rowSetProperty "hostKey"
                  ("HK-" ++ freshMeetingId rst.remote)] else [])
          ++ (if cfg.attendeeUrlMapped then
                [Call.rowSetProperty "attendeeUrl"
                  ("RL-" ++ freshMeetingId rst.remote)] else [])
          ++ [Call.rowCommit])
      ++ processInvitees cfg.noCohosts (freshMeetingId rst.remote)
          e.panelists e.cohosts [] := by
  rfl

theorem createPath_countCalls (cfg : Config) (rst : RunState) (row : Row)
    (e : Intent) (f : Call → Bool)
    (hRowSet : ∀ col v, f (Call.rowSetProperty col v) = false)
    (hCommit : f Call.rowCommit = false)
    (hList : ∀ i, f (Call.inviteesList i) = false)
    (hOp : ∀ c, isInviteeOpCall c = true → f c = false) :
    countCalls (createPath cfg rst row e).1 f =
      (if f (Call.meetingsCreate e.title e.agenda e.startdatetime
          e.enddatetime e.reminderTime) = true then 1 else 0) := by
  rw [createPath_trace, countCalls_append, countCalls_append,
    countCalls_cons, countCalls_nil]
  rw [processInvitees_counts cfg.noCohosts _ e.panelists e.cohosts []
    f (hList _) hOp]
  have hwb : countCalls
      ([Call.rowSetProperty "webinarId" (freshMeetingId rst.remote)]
        ++ (if cfg.hostKeyMapped then
              [Call.rowSetProperty "hostKey"
                ("HK-" ++ freshMeetingId rst.remote)] else [])
        ++ (if cfg.attendeeUrlMapped then
              [Call.rowSetProperty "attendeeUrl"
                ("RL-" ++ freshMeetingId rst.remote)] else [])
        ++ [Call.rowCommit]) f = 0 := by
    cases cfg.hostKeyMapped <;> cases cfg.attendeeUrlMapped <;>
      simp [countCalls_append, countCalls_cons, countCalls_nil, hRowSet,
        hCommit]
  rw [hwb]
  omega

theorem presentPath_trace_none (cfg : Config) (rst : RunState) (row : Row)
    (e : Intent) (wid : String)
    (h : lookupWebinar rst.remote wid = none) :
    (presentPath cfg rst row e wid).1 =
      [Call.meetingsGet wid,
       Call.logError ("Failed to update webinar " ++ e.title)] := by
  unfold presentPath
  rw [h]

theorem presentPath_trace_some (cfg : Config) (rst : RunState) (row : Row)
    (e : Intent) (wid : String) (w : Webinar)
    (h : lookupWebinar rst.remote wid = some w) :
    (presentPath cfg rst row e wid).1 =
      [Call.meetingsGet wid]
      ++ (if needUpdate e w then
            [Call.meetingsUpdate wid e.title e.agenda e.startdatetime
              e.enddatetime (passwordOrRemote e w) (needUpdateSendEmail e w)]
          else [])
      ++ (refreshRegistrantCount cfg.registrantCountMapped true
          rst.totalRegistrantCount (some w.invitees) wid).2
      ++ processInvitees cfg.noCohosts w.id e.panelists e.cohosts
          w.invitees := by
  unfold presentPath
  rw [h]
  by_cases hu : needUpdate e w = true
  · simp only [hu, if_true, inviteePhase]
  · simp only [Bool.not_eq_true] at hu
    simp only [hu, Bool.false_eq_true, if_false, inviteePhase]

/-! ### processRow branch reduction lemmas -/

theorem processRow_skip (cfg : Config) (rst : RunState) (row : Row)
    (h : row.create = false) :
    processRow cfg rst row = ([], rst, row) := by
  unfold processRow
  rw [h]
  rfl

theorem processRow_error (cfg : Config) (rst : RunState) (row : Row)
    (msg : String) (h1 : row.create = true)
    (h2 : extractIntent cfg row = Except.error msg) :
    processRow cfg rst row = ([Call.logError msg], rst, row) := by
  unfold processRow
  rw [h1, h2]
  rfl

theorem processRow_create (cfg : Config) (rst : RunState) (row : Row)
    (e : Intent) (h1 : row.create = true)
    (h2 : extractIntent cfg row = Except.ok e) (h3 : idFalsy e.id = true) :
    processRow cfg rst row = createPath cfg rst row e := by
  unfold processRow
  rw [h1, h2]
  simp [h3]

theorem processRow_present (cfg : Config) (rst : RunState) (row : Row)
    (e : Intent) (h1 : row.create = true)
    (h2 : extractIntent cfg row = Except.ok e) (h3 : idFalsy e.id = false) :
    processRow cfg rst row = presentPath cfg rst row e (e.id.getD "") := by
  unfold processRow
  rw [h1, h2]
  simp [h3]

/-! ### needUpdate characterizations -/

theorem needUpdateSendEmail_eq_decide (e : Intent) (w : Webinar) :
    needUpdateSendEmail e w =
      decide (¬ e.title = w.title ∨ ¬ e.startdatetime = w.start ∨
        ¬ e.enddatetime = w.endTime) := by
  by_cases h1 : e.title = w.title <;>
    by_cases h2 : e.startdatetime = w.start <;>
      by_cases h3 : e.enddatetime = w.endTime <;>
        simp [needUpdateSendEmail, h1, h2, h3]

theorem needUpdateSendEmail_iff (e : Intent) (w : Webinar) :
    needUpdateSendEmail e w = true ↔
      (¬ e.title = w.title ∨ ¬ e.startdatetime = w.start ∨
        ¬ e.enddatetime = w.endTime) := by
  rw [needUpdateSendEmail_eq_decide]
  exact decide_eq_true_iff

theorem needUpdate_iff (e : Intent) (w : Webinar) :
    needUpdate e w = true ↔
      (needUpdateSendEmail e w = true ∨ ¬ e.agenda = w.agenda) := by
  unfold needUpdate
  cases h : needUpdateSendEmail e w <;>
    by_cases h2 : e.agenda = w.agenda <;> simp [h, h2]

/-! ### Claim C2: webinar update decision -/

theorem presentPath_filter_update (cfg : Config) (rst : RunState)
    (row : Row) (e : Intent) (wid : String) (w : Webinar)
    (h : lookupWebinar rst.remote wid = some w) :
    (presentPath cfg rst row e wid).1.filter isMeetingsUpdate =
      (if needUpdate e w = true then
        [Call.meetingsUpdate wid e.title e.agenda e.startdatetime
          e.enddatetime (passwordOrRemote e w) (needUpdateSendEmail e w)]
       else []) := by
  rw [presentPath_trace_some cfg rst row e wid w h]
  rw [List.filter_append, List.filter_append, List.filter_append]
  have hget : List.filter isMeetingsUpdate [Call.meetingsGet wid] = [] := rfl
  have hrefresh : (refreshRegistrantCount cfg.registrantCountMapped true
      rst.totalRegistrantCount (some w.invitees) wid).2.filter
        isMeetingsUpdate = [] := by
    rw [← countCalls_zero_iff_filter_nil]
    exact refreshRegistrantCount_counts _ _ _ _ _ _ rfl (fun n => rfl) rfl
      (fun m => rfl)
  have hinv : (processInvitees cfg.noCohosts w.id e.panelists e.cohosts
      w.invitees).filter isMeetingsUpdate = [] := by
    rw [← countCalls_zero_iff_filter_nil]
    exact processInvitees_counts _ _ _ _ _ _ rfl
      isMeetingsUpdate_false_of_inviteeOp
  rw [hget, hrefresh, hinv]
  by_cases hu : needUpdate e w = true
  · rw [if_pos hu]
    simp [List.filter_cons, isMeetingsUpdate]
  · rw [if_neg hu]
    simp

/-- Claim C2: webinar update decision in the Present state.
`needUpdateSendEmail` holds exactly when the intent's title, start or end
differs from the fetched remote webinar; `needUpdate` holds exactly when
`needUpdateSendEmail` holds or the agenda differs; a remote update is
issued if and only if `needUpdate` holds, with its send-notification flag
equal to `needUpdateSendEmail`; in particular a row whose title, start
and end match the remote but whose agenda differs issues an update with
notification suppressed. -/
theorem C2_webinar_update_decision (cfg : Config) (rst : RunState)
    (row : Row) (e : Intent) (w : Webinar)
    (h1 : row.create = true)
    (h2 : extractIntent cfg row = Except.ok e)
    (h3 : idFalsy e.id = false)
    (h4 : lookupWebinar rst.remote (e.id.getD "") = some w) :
    (needUpdateSendEmail e w = true ↔
      (¬ e.title = w.title ∨ ¬ e.startdatetime = w.start ∨
        ¬ e.enddatetime = w.endTime))
    ∧ (needUpdate e w = true ↔
        (needUpdateSendEmail e w = true ∨ ¬ e.agenda = w.agenda))
    ∧ ((processRow cfg rst row).1.filter isMeetingsUpdate =
        (if needUpdate e w = true then
          [Call.meetingsUpdate (e.id.getD "") e.title e.agenda
            e.startdatetime e.enddatetime (passwordOrRemote e w)
            (needUpdateSendEmail e w)]
         else []))
    ∧ (e.title = w.title → e.startdatetime = w.start →
       e.enddatetime = w.endTime → ¬ e.agenda = w.agenda →
       (processRow cfg rst row).1.filter isMeetingsUpdate =
         [Call.meetingsUpdate (e.id.getD "") e.title e.agenda
           e.startdatetime e.enddatetime (passwordOrRemote e w) false]) := by
  have hmain : (processRow cfg rst row).1.filter isMeetingsUpdate =
      (if needUpdate e w = true then
        [Call.meetingsUpdate (e.id.getD "") e.title e.agenda
          e.startdatetime e.enddatetime (passwordOrRemote e w)
          (needUpdateSendEmail e w)]
       else []) := by
    rw [processRow_present cfg rst row e h1 h2 h3]
    exact presentPath_filter_update cfg rst row e _ w h4
  refine ⟨needUpdateSendEmail_iff e w, needUpdate_iff e w, hmain, ?_⟩
  intro ht hs hen ha
  have hse : needUpdateSendEmail e w = false := by
    rw [needUpdateSendEmail_eq_decide]
    simp [ht, hs, hen]
  have hu : needUpdate e w = true := by
    rw [needUpdate_iff]
    exact Or.inr ha
  rw [hmain, if_pos hu, hse]

/-- Witness for C2: an agenda-only difference issues exactly the update
call with notification suppressed. -/
theorem C2_webinar_update_decision_witness :
    extractIntent exCfgC2 exRowC2 = Except.ok exIntentC2
    ∧ (processRow exCfgC2 exRstC2 exRowC2).1.filter isMeetingsUpdate =
        [Call.meetingsUpdate "W" "T" (some "New agenda") 1000 1060 "pw"
          false] :=
  ⟨rfl,
   (C2_webinar_update_decision exCfgC2 exRstC2 exRowC2 exIntentC2
      exWebinarC2 rfl rfl rfl (by decide)).2.2.2 rfl rfl rfl (by decide)⟩

/-! ### Claim C3: create-vs-update is a pure function of externalId -/

theorem presentPath_countCalls_some (cfg : Config) (rst : RunState)
    (row : Row) (e : Intent) (wid : String) (w : Webinar)
    (h : lookupWebinar rst.remote wid = some w) (f : Call → Bool)
    (hList : ∀ i, f (Call.inviteesList i) = false)
    (hSet : ∀ n, f (Call.rowSetRegistrantCount n) = false)
    (hCommit : f Call.rowCommit = false)
    (hLog : ∀ m, f (Call.logError m) = false)
    (hOp : ∀ c, isInviteeOpCall c = true → f c = false) :
    countCalls (presentPath cfg rst row e wid).1 f =
      (if f (Call.meetingsGet wid) = true then 1 else 0) +
      (if needUpdate e w = true then
        (if f (Call.meetingsUpdate wid e.title e.agenda e.startdatetime
            e.enddatetime (passwordOrRemote e w)
            (needUpdateSendEmail e w)) = true then 1 else 0)
       else 0) := by
  rw [presentPath_trace_some cfg rst row e wid w h]
  rw [countCalls_append, countCalls_append, countCalls_append]
  rw [refreshRegistrantCount_counts _ _ _ _ _ _ (hList _) hSet hCommit hLog]
  rw [processInvitees_counts _ _ _ _ _ _ (hList _) hOp]
  rw [countCalls_cons, countCalls_nil]
  by_cases hu : needUpdate e w = true
  · rw [if_pos hu, if_pos hu, countCalls_cons, countCalls_nil]
    omega
  · rw [if_neg hu, if_neg hu, countCalls_nil]

/-- Claim C3: for every processed row the engine takes the create path
if and only if the extracted webinar id is empty or missing, takes the
fetch-then-conditional-update path if and only if the id is non-empty,
and never issues both a create and an update for the same row. -/
theorem C3_create_vs_update (cfg : Config) (rst : RunState) (row : Row)
    (e : Intent) (h1 : row.create = true)
    (h2 : extractIntent cfg row = Except.ok e) :
    countCalls (processRow cfg rst row).1 isMeetingsCreate =
      (if idFalsy e.id = true then 1 else 0)
    ∧ countCalls (processRow cfg rst row).1 isMeetingsGet =
      (if idFalsy e.id = true then 0 else 1)
    ∧ (countCalls (processRow cfg rst row).1 isMeetingsCreate = 0 ∨
       countCalls (processRow cfg rst row).1 isMeetingsUpdate = 0) := by
  by_cases hid : idFalsy e.id = true
  · rw [processRow_create cfg rst row e h1 h2 hid]
    rw [if_pos hid, if_pos hid]
    refine ⟨?_, ?_, Or.inr ?_⟩
    · rw [createPath_countCalls cfg rst row e isMeetingsCreate
        (fun c v => rfl) rfl (fun i => rfl)
        isMeetingsCreate_false_of_inviteeOp]
      rfl
    · rw [createPath_countCalls cfg rst row e isMeetingsGet
        (fun c v => rfl) rfl (fun i => rfl)
        isMeetingsGet_false_of_inviteeOp]
      rfl
    · rw [createPath_countCalls cfg rst row e isMeetingsUpdate
        (fun c v => rfl) rfl (fun i => rfl)
        isMeetingsUpdate_false_of_inviteeOp]
      rfl
  · have hid2 : idFalsy e.id = false := by simpa using hid
    rw [processRow_present cfg rst row e h1 h2 hid2]
    rw [if_neg hid, if_neg hid]
    cases hlw : lookupWebinar rst.remote (e.id.getD "") with
    | none =>
      rw [presentPath_trace_none cfg rst row e _ hlw]
      exact ⟨rfl, rfl, Or.inl rfl⟩
    | some w =>
      refine ⟨?_, ?_, Or.inl ?_⟩
      · rw [presentPath_countCalls_some cfg rst row e _ w hlw
          isMeetingsCreate (fun i => rfl) (fun n => rfl) rfl (fun m => rfl)
          isMeetingsCreate_false_of_inviteeOp]
        by_cases hu : needUpdate e w = true <;> simp [hu, isMeetingsCreate,
          isMeetingsGet]
      · rw [presentPath_countCalls_some cfg rst row e _ w hlw
          isMeetingsGet (fun i => rfl) (fun n => rfl) rfl (fun m => rfl)
          isMeetingsGet_false_of_inviteeOp]
        by_cases hu : needUpdate e w = true <;> simp [hu, isMeetingsGet,
          isMeetingsUpdate]
      · rw [presentPath_countCalls_some cfg rst row e _ w hlw
          isMeetingsCreate (fun i => rfl) (fun n => rfl) rfl (fun m => rfl)
          isMeetingsCreate_false_of_inviteeOp]
        by_cases hu : needUpdate e w = true <;> simp [hu, isMeetingsCreate,
          isMeetingsGet]

/-- Witness for C3 at the C2 fixtures (non-empty id): zero creates, one
fetch, and not both a create and an update. -/
theorem C3_create_vs_update_witness :
    countCalls (processRow exCfgC2 exRstC2 exRowC2).1 isMeetingsCreate =
      (if idFalsy exIntentC2.id = true then 1 else 0)
    ∧ countCalls (processRow exCfgC2 exRstC2 exRowC2).1 isMeetingsGet =
      (if idFalsy exIntentC2.id = true then 0 else 1)
    ∧ (countCalls (processRow exCfgC2 exRstC2 exRowC2).1 isMeetingsCreate = 0
       ∨ countCalls (processRow exCfgC2 exRstC2 exRowC2).1 isMeetingsUpdate
         = 0) :=
  C3_create_vs_update exCfgC2 exRstC2 exRowC2 exIntentC2 rfl rfl

/-! ### Claim C9: row-scoped validation failure -/

theorem runPass_cons (cfg : Config) (rst : RunState) (row : Row)
    (rest : List Row) :
    runPass cfg rst (row :: rest) =
      ((processRow cfg rst row).1 ::
        (runPass cfg (processRow cfg rst row).2.1 rest).1,
       (runPass cfg (processRow cfg rst row).2.1 rest).2.1,
       (processRow cfg rst row).2.2 ::
        (runPass cfg (processRow cfg rst row).2.1 rest).2.2) := rfl

theorem runPass_length (cfg : Config) :
    ∀ (rows : List Row) (rst : RunState),
      (runPass cfg rst rows).1.length = rows.length := by
  intro rows
  induction rows with
  | nil => intro rst; rfl
  | cons row rest ih =>
    intro rst
    rw [runPass_cons]
    simp only [List.length_cons]
    rw [ih]

theorem runPass_error_trace (cfg : Config) (msg : String) (badRow : Row)
    (h1 : badRow.create = true)
    (h2 : extractIntent cfg badRow = Except.error msg) :
    ∀ (rows : List Row) (i : Nat) (rst : RunState),
      rows.get? i = some badRow →
      (runPass cfg rst rows).1.get? i = some [Call.logError msg] := by
  intro rows
  induction rows with
  | nil => intro i rst h0; cases h0
  | cons row rest ih =>
    intro i rst h0
    cases i with
    | zero =>
      rw [List.get?_cons_zero, Option.some.injEq] at h0
      subst h0
      rw [runPass_cons, List.get?_cons_zero,
        processRow_error cfg rst row msg h1 h2]
    | succ n =>
      rw [List.get?_cons_succ] at h0
      rw [runPass_cons, List.get?_cons_succ]
      exact ih n (processRow cfg rst row).2.1 h0

/-- Claim C9: a row-scoped validation failure logs a row-level error,
performs no remote webinar or invitee call for that row, and does not
abort the pass — every row still gets its own trace. -/
theorem C9_row_validation_failure (cfg : Config) (rst : RunState)
    (rows : List Row) (i : Nat) (badRow : Row) (msg : String)
    (h0 : rows.get? i = some badRow)
    (h1 : badRow.create = true)
    (h2 : extractIntent cfg badRow = Except.error msg) :
    (runPass cfg rst rows).1.length = rows.length
    ∧ (runPass cfg rst rows).1.get? i = some [Call.logError msg]
    ∧ countCalls [Call.logError msg] isRemoteCall = 0 :=
  ⟨runPass_length cfg rows rst,
   runPass_error_trace cfg msg badRow h1 h2 rows i rst h0,
   rfl⟩

/-- Witness for C9: in the pass `[exRowC2, exBadRow, exRowC2]` the middle
row fails validation, its trace is exactly the row-level error with no
remote calls, and all three rows are processed. -/
theorem C9_row_validation_failure_witness :
    (runPass exCfgC2 exRstC2 [exRowC2, exBadRow, exRowC2]).1.length = 3
    ∧ (runPass exCfgC2 exRstC2 [exRowC2, exBadRow, exRowC2]).1.get? 1 =
        some [Call.logError "Failed to process Bad"]
    ∧ countCalls [Call.logError "Failed to process Bad"] isRemoteCall = 0 :=
  C9_row_validation_failure exCfgC2 exRstC2 [exRowC2, exBadRow, exRowC2]
    1 exBadRow "Failed to process Bad" rfl rfl rfl

/-! ### Claim C10: registrant total accumulated before write-back -/

theorem refreshRegistrantCount_fst (mapped ok : Bool) (total : Int)
    (invitees : List RemoteInvitee) (wid : String) :
    (refreshRegistrantCount mapped ok total (some invitees) wid).1 =
      total + (invitees.length : Int) := by
  unfold refreshRegistrantCount
  cases mapped <;> cases ok <;> rfl

/-- Claim C10: in the Present branch the run-wide registrant total is
incremented by the row's invitee count before the row write-back is
attempted, so whenever listing succeeds the total includes the count even
if the registrant-count column is unmapped or the write-back fails; the
counter update is never rolled back. -/
theorem C10_registrant_total_accumulation :
    (∀ (mapped writeBackOk : Bool) (total : Int)
       (invitees : List RemoteInvitee) (wid : String),
       (refreshRegistrantCount mapped writeBackOk total (some invitees)
         wid).1 = total + (invitees.length : Int))
    ∧ ∀ (cfg : Config) (rst : RunState) (row : Row) (e : Intent)
        (wid : String) (w : Webinar),
        lookupWebinar rst.remote wid = some w →
        (presentPath cfg rst row e wid).2.1.totalRegistrantCount =
          rst.totalRegistrantCount + (w.invitees.length : Int) := by
  constructor
  · intro mapped writeBackOk total invitees wid
    exact refreshRegistrantCount_fst mapped writeBackOk total invitees wid
  · intro cfg rst row e wid w h
    unfold presentPath
    rw [h]
    by_cases hu : needUpdate e w = true
    · simp only [hu, if_true]
      exact refreshRegistrantCount_fst _ _ _ _ _
    · simp only [Bool.not_eq_true] at hu
      simp only [hu, Bool.false_eq_true, if_false]
      exact refreshRegistrantCount_fst _ _ _ _ _

/-- Witness for C10 at the C2 fixtures: the present-branch total after
one row equals the previous total plus the remote invitee count. -/
theorem C10_registrant_total_accumulation_witness :
    (presentPath exCfgC2 exRstC2 exRowC2 exIntentC2 "W").2.1.totalRegistrantCount
      = exRstC2.totalRegistrantCount +
        ((exWebinarC2.invitees.length : Nat) : Int) :=
  C10_registrant_total_accumulation.2 exCfgC2 exRstC2 exRowC2 exIntentC2
    "W" exWebinarC2 (by decide)

/-! ### Claim C7: always-invite merge precedence -/

/-- Claim C7: the always-invite panelist set is merged into the row's
panelist map last with later-merge-wins semantics: for every email in
both maps the final panelist map carries the always-invite display
name. -/
theorem C7_always_invite_precedence (cfg : Config) (row : Row) (e : Intent)
    (h : extractIntent cfg row = Except.ok e) :
    e.panelists = dupdate (rowPanelists cfg row) (alwaysInvitePanelistsDict cfg)
    ∧ ∀ email, amem (rowPanelists cfg row) email = true →
        amem (alwaysInvitePanelistsDict cfg) email = true →
        alookup e.panelists email =
          alookup (alwaysInvitePanelistsDict cfg) email := by
  unfold extractIntent at h
  split at h
  · exact Except.noConfusion h
  · split at h
    · exact Except.noConfusion h
    · simp only [Except.ok.injEq] at h
      subst h
      refine ⟨rfl, fun email _ h2 => ?_⟩
      exact alookup_dupdate_of_mem _ _ email
        (nodup_akeys_stringContactsToDict _ _) h2

/-- Witness for C7: at the concrete collision the final panelist map
carries the always-invite display name. -/
theorem C7_always_invite_precedence_witness :
    amem (rowPanelists exCfgC7 exRowC7) "jane@x.com" = true
    ∧ amem (alwaysInvitePanelistsDict exCfgC7) "jane@x.com" = true
    ∧ alookup exIntentC7.panelists "jane@x.com" =
        alookup (alwaysInvitePanelistsDict exCfgC7) "jane@x.com" :=
  ⟨by decide, by decide,
   (C7_always_invite_precedence exCfgC7 exRowC7 exIntentC7 rfl).2
     "jane@x.com" (by decide) (by decide)⟩

/-! ### Claim C8: reminder suppression -/

/-- Claim C8: `reminderTime` defaults to 30 minutes when unset or falsy
and is forced to 0 exactly when the current time is at or past
`startdatetime` minus the resolved reminder, otherwise it is kept. -/
theorem C8_reminder_suppression (cfg : Config) (row : Row) (e : Intent)
    (h : extractIntent cfg row = Except.ok e) :
    ((row.reminderTimeRaw = none ∨ row.reminderTimeRaw = some 0) →
      e.reminderTime = if cfg.now ≥ e.startdatetime - 30 then 0 else 30)
    ∧ ∀ r : Int, row.reminderTimeRaw = some r → ¬ r = 0 →
        e.reminderTime = if cfg.now ≥ e.startdatetime - r then 0 else r := by
  unfold extractIntent at h
  split at h
  · exact Except.noConfusion h
  · split at h
    · exact Except.noConfusion h
    · simp only [Except.ok.injEq] at h
      subst h
      constructor
      · rintro (hr | hr) <;> simp [buildIntent, resolveReminder, hr]
      · intro r hr hr0
        simp [buildIntent, resolveReminder, hr, hr0]

/-- Witness for C8 at the C2 fixtures: the unset reminder resolves to 30
and is not suppressed because the start is still far in the future. -/
theorem C8_reminder_suppression_witness :
    exIntentC2.reminderTime =
      if exCfgC2.now ≥ exIntentC2.startdatetime - 30 then 0 else 30 :=
  (C8_reminder_suppression exCfgC2 exRowC2 exIntentC2 rfl).1 (Or.inl rfl)

/-! ### Invitee diffing loop characterization -/

theorem mem_ainsert {α : Type} (m : List (String × α)) (k : String)
    (v : α) : ∀ q ∈ ainsert m k v, q = (k, v) ∨ q ∈ m := by
  induction m with
  | nil =>
    intro q hq
    rw [ainsert, List.mem_singleton] at hq
    exact Or.inl hq
  | cons p t ih =>
    intro q hq
    unfold ainsert at hq
    by_cases hp : p.1 = k
    · rw [if_pos hp] at hq
      rcases List.mem_cons.1 hq with h | h
      · exact Or.inl h
      · exact Or.inr (List.mem_cons_of_mem p h)
    · rw [if_neg hp] at hq
      rcases List.mem_cons.1 hq with h | h
      · exact Or.inr (h ▸ List.mem_cons_self p t)
      · rcases ih q h with h2 | h2
        · exact Or.inl h2
        · exact Or.inr (List.mem_cons_of_mem p h2)

theorem amem_eq_false_of_alookup_none {α : Type} (m : List (String × α))
    (k : String) (h : alookup m k = none) : amem m k = false := by
  induction m with
  | nil => rfl
  | cons p t ih =>
    rw [alookup_cons] at h
    by_cases hp : p.1 = k
    · rw [if_pos hp] at h
      exact Option.noConfusion h
    · rw [if_neg hp] at h
      rw [amem_cons, ih h]
      simp [hp]

theorem inviteeStep_eq (mid : String)
    (panelists cohosts : List (String × String))
    (acc : List Call × List (String × RemoteInvitee)) (p : String × String) :
    inviteeStep mid panelists cohosts acc p =
      (acc.1 ++ (inviteeOpFor mid panelists cohosts acc.2 p).toList,
       aerase acc.2 p.1) := by
  unfold inviteeStep inviteeOpFor
  cases hl : alookup acc.2 p.1 with
  | some inv =>
    dsimp only
    by_cases hc : ¬ p.2 = inv.displayName ∨ ¬ amem cohosts p.1 = inv.coHost
    · rw [if_pos hc, if_pos hc]
      rfl
    · rw [if_neg hc, if_neg hc]
      simp
  | none =>
    dsimp only
    rw [aerase_of_not_mem acc.2 p.1 (amem_eq_false_of_alookup_none _ _ hl)]
    rfl

theorem inviteeOpFor_aerase_ne (mid : String)
    (panelists cohosts : List (String × String))
    (cur : List (String × RemoteInvitee)) (k : String) (p : String × String)
    (hne : ¬ p.1 = k) :
    inviteeOpFor mid panelists cohosts (aerase cur k) p =
      inviteeOpFor mid panelists cohosts cur p := by
  unfold inviteeOpFor
  rw [alookup_aerase_ne cur k p.1 hne]

theorem filterMapExt {α β : Type} (l : List α) (f g : α → Option β)
    (h : ∀ a ∈ l, f a = g a) : l.filterMap f = l.filterMap g := by
  induction l with
  | nil => rfl
  | cons a t ih =>
    rw [List.filterMap_cons, List.filterMap_cons,
      h a (List.mem_cons_self a t),
      ih (fun b hb => h b (List.mem_cons_of_mem a hb))]

theorem filterExt {α : Type} (l : List α) (p q : α → Bool)
    (h : ∀ a ∈ l, p a = q a) : l.filter p = l.filter q := by
  induction l with
  | nil => rfl
  | cons a t ih =>
    rw [List.filter_cons, List.filter_cons,
      h a (List.mem_cons_self a t),
      ih (fun b hb => h b (List.mem_cons_of_mem a hb))]

theorem inviteeFold_spec (mid : String)
    (panelists cohosts : List (String × String)) :
    ∀ (ds : List (String × String)) (ops0 : List Call)
      (cur : List (String × RemoteInvitee)),
      (ds.map Prod.fst).Nodup →
      ds.foldl (inviteeStep mid panelists cohosts) (ops0, cur) =
        (ops0 ++ ds.filterMap (inviteeOpFor mid panelists cohosts cur),
         ds.foldl (fun c p => aerase c p.1) cur) := by
  intro ds
  induction ds with
  | nil => intro ops0 cur _; simp
  | cons p rest ih =>
    intro ops0 cur hnd
    rw [List.map_cons, List.nodup_cons] at hnd
    rw [List.foldl_cons, inviteeStep_eq,
      ih (ops0 ++ (inviteeOpFor mid panelists cohosts cur p).toList)
        (aerase cur p.1) hnd.2]
    have hcongr : rest.filterMap
        (inviteeOpFor mid panelists cohosts (aerase cur p.1)) =
        rest.filterMap (inviteeOpFor mid panelists cohosts cur) := by
      apply filterMapExt
      intro q hq
      apply inviteeOpFor_aerase_ne
      intro hqk
      exact hnd.1 (hqk ▸ List.mem_map_of_mem Prod.fst hq)
    rw [hcongr, List.append_assoc]
    rw [List.foldl_cons]
    congr 1
    rw [List.filterMap_cons]
    cases hf : inviteeOpFor mid panelists cohosts cur p <;> rfl

theorem foldl_aerase_eq_filter :
    ∀ (ds : List (String × String)) (cur : List (String × RemoteInvitee)),
      ds.foldl (fun c p => aerase c p.1) cur =
        cur.filter (fun q => ¬ amem ds q.1 = true) := by
  intro ds
  induction ds with
  | nil =>
    intro cur
    rw [List.foldl_nil]
    rw [List.filter_eq_self.mpr]
    intro q _
    simp [amem_nil]
  | cons p rest ih =>
    intro cur
    rw [List.foldl_cons, ih (aerase cur p.1)]
    unfold aerase
    rw [List.filter_filter]
    apply filterExt
    intro q _
    rw [amem_cons]
    by_cases h1 : p.1 = q.1 <;> by_cases h2 : amem rest q.1 = true <;>
      simp [h1, h2, eq_comm]

theorem reconcileInvitees_eq (mid : String)
    (panelists cohosts : List (String × String))
    (cur : List (String × RemoteInvitee))
    (hnd : ((dupdate panelists cohosts).map Prod.fst).Nodup) :
    reconcileInvitees mid panelists cohosts cur =
      (dupdate panelists cohosts).filterMap
        (inviteeOpFor mid panelists cohosts cur)
      ++ (cur.filter
          (fun q => ¬ amem (dupdate panelists cohosts) q.1 = true)).map
          (fun q => Call.inviteeDelete q.2.id) := by
  unfold reconcileInvitees
  rw [inviteeFold_spec mid panelists cohosts _ [] cur hnd]
  rw [foldl_aerase_eq_filter]
  rw [List.nil_append]

/-! ### Facts about the uninvite-candidate set -/

theorem buildCurrentInvitees_keys_nodup (remote : List RemoteInvitee) :
    ((buildCurrentInvitees remote).map Prod.fst).Nodup := by
  unfold buildCurrentInvitees
  suffices h : ∀ (l : List RemoteInvitee)
      (acc : List (String × RemoteInvitee)), (akeys acc).Nodup →
      (akeys (l.foldl (fun acc i =>
        if i.panelist || i.coHost then ainsert acc i.email i else acc)
        acc)).Nodup by
    exact h remote [] List.nodup_nil
  intro l
  induction l with
  | nil => intro acc hacc; exact hacc
  | cons i t ih =>
    intro acc hacc
    rw [List.foldl_cons]
    by_cases hi : (i.panelist || i.coHost) = true
    · rw [if_pos hi]
      exact ih _ (nodup_akeys_ainsert acc i.email i hacc)
    · rw [if_neg hi]
      exact ih _ hacc

theorem buildCurrentInvitees_mem (remote : List RemoteInvitee) :
    ∀ q ∈ buildCurrentInvitees remote,
      q.2 ∈ remote ∧ q.1 = q.2.email ∧ (q.2.panelist || q.2.coHost) = true := by
  unfold buildCurrentInvitees
  suffices h : ∀ (l : List RemoteInvitee)
      (acc : List (String × RemoteInvitee)),
      (∀ i ∈ l, i ∈ remote) →
      (∀ q ∈ acc, q.2 ∈ remote ∧ q.1 = q.2.email ∧
        (q.2.panelist || q.2.coHost) = true) →
      ∀ q ∈ l.foldl (fun acc i =>
          if i.panelist || i.coHost then ainsert acc i.email i else acc) acc,
        q.2 ∈ remote ∧ q.1 = q.2.email ∧
          (q.2.panelist || q.2.coHost) = true by
    exact h remote [] (fun i hi => hi) (fun q hq => absurd hq (List.not_mem_nil q))
  intro l
  induction l with
  | nil => intro acc _ hacc q hq; exact hacc q hq
  | cons i t ih =>
    intro acc hl hacc q hq
    rw [List.foldl_cons] at hq
    by_cases hi : (i.panelist || i.coHost) = true
    · rw [if_pos hi] at hq
      refine ih _ (fun j hj => hl j (List.mem_cons_of_mem i hj)) ?_ q hq
      intro r hr
      rcases mem_ainsert acc i.email i r hr with h | h
      · subst h
        exact ⟨hl i (List.mem_cons_self i t), rfl, hi⟩
      · exact hacc r h
    · rw [if_neg hi] at hq
      exact ih _ (fun j hj => hl j (List.mem_cons_of_mem i hj)) hacc q hq

theorem buildCurrentInvitees_values_eq (remote : List RemoteInvitee)
    (hids : (remote.map RemoteInvitee.id).Nodup)
    (a b : String × RemoteInvitee)
    (ha : a ∈ buildCurrentInvitees remote)
    (hb : b ∈ buildCurrentInvitees remote)
    (hid : a.2.id = b.2.id) : a = b := by
  rcases buildCurrentInvitees_mem remote a ha with ⟨ham, hae, _⟩
  rcases buildCurrentInvitees_mem remote b hb with ⟨hbm, hbe, _⟩
  have hv : a.2 = b.2 :=
    List.inj_on_of_nodup_map hids ham hbm hid
  have hk : a.1 = b.1 := by rw [hae, hbe, hv]
  cases a
  cases b
  simp only at hv hk
  rw [hv, hk]

theorem buildCurrentInvitees_nodup (remote : List RemoteInvitee) :
    (buildCurrentInvitees remote).Nodup :=
  List.Nodup.of_map Prod.fst (buildCurrentInvitees_keys_nodup remote)

/-! ### Per-key filtering of the diffing output -/

theorem filterMap_filter_all_nil {α : Type} (l : List α)
    (f : α → Option Call) (g : Call → Bool)
    (h : ∀ x ∈ l, ∀ c, f x = some c → g c = false) :
    (l.filterMap f).filter g = [] := by
  induction l with
  | nil => rfl
  | cons a t ih =>
    rw [List.filterMap_cons]
    cases hf : f a with
    | none => exact ih (fun x hx => h x (List.mem_cons_of_mem a hx))
    | some c =>
      rw [List.filter_cons, h a (List.mem_cons_self a t) c hf]
      simp only [Bool.false_eq_true, if_false]
      exact ih (fun x hx => h x (List.mem_cons_of_mem a hx))

theorem filterMap_filter_key (ds : List (String × String))
    (hnd : (ds.map Prod.fst).Nodup) (email nm : String)
    (hmem : (email, nm) ∈ ds) (f : String × String → Option Call)
    (g : Call → Bool)
    (hother : ∀ p ∈ ds, ¬ p.1 = email → ∀ c, f p = some c → g c = false) :
    (ds.filterMap f).filter g = (f (email, nm)).toList.filter g := by
  induction ds with
  | nil => cases hmem
  | cons q rest ih =>
    rw [List.map_cons, List.nodup_cons] at hnd
    by_cases hqe : q = (email, nm)
    · subst hqe
      rw [List.filterMap_cons]
      have hrest : (rest.filterMap f).filter g = [] := by
        apply filterMap_filter_all_nil
        intro x hx c hfc
        refine hother x (List.mem_cons_of_mem _ hx) ?_ c hfc
        intro hx1
        refine hnd.1 ?_
        show email ∈ List.map Prod.fst rest
        rw [← hx1]
        exact List.mem_map_of_mem Prod.fst hx
      cases hf : f (email, nm) with
      | none =>
        dsimp only
        rw [hrest]
        rfl
      | some c =>
        dsimp only
        rw [List.filter_cons, hrest]
        cases hg : g c <;> simp [hg]
    · have hq1 : ¬ q.1 = email := by
        intro hq1
        rcases List.mem_cons.1 hmem with h | h
        · exact hqe h.symm
        · refine hnd.1 ?_
          rw [hq1]
          exact List.mem_map_of_mem Prod.fst h
      have hmem2 : (email, nm) ∈ rest := by
        rcases List.mem_cons.1 hmem with h | h
        · exact absurd h.symm hqe
        · exact h
      rw [List.filterMap_cons]
      cases hf : f q with
      | none =>
        exact ih hnd.2 hmem2
          (fun p hp hpe c hfc => hother p (List.mem_cons_of_mem q hp) hpe c hfc)
      | some c =>
        rw [List.filter_cons,
          hother q (List.mem_cons_self q rest) hq1 c hf]
        simp only [Bool.false_eq_true, if_false]
        exact ih hnd.2 hmem2
          (fun p hp hpe c2 hfc => hother p (List.mem_cons_of_mem q hp) hpe c2 hfc)

theorem filter_eq_singleton_of_unique {α : Type} [DecidableEq α]
    (l : List α) (hnd : l.Nodup) (p : α → Bool) (x : α) (hx : x ∈ l)
    (hpx : p x = true) (huniq : ∀ y ∈ l, p y = true → y = x) :
    l.filter p = [x] := by
  induction l with
  | nil => cases hx
  | cons a t ih =>
    rw [List.nodup_cons] at hnd
    by_cases hax : x = a
    · subst hax
      rw [List.filter_cons, hpx]
      simp only [if_true]
      have ht : t.filter p = [] := by
        rw [List.filter_eq_nil_iff]
        intro y hy hpy
        exact hnd.1 ((huniq y (List.mem_cons_of_mem x hy) (by simpa using hpy)) ▸ hy)
      rw [ht]
    · have hxt : x ∈ t := by
        rcases List.mem_cons.1 hx with h | h
        · exact absurd h hax
        · exact h
      have hpa : p a = false := by
        cases hpa : p a
        · rfl
        · exact absurd (huniq a (List.mem_cons_self a t) hpa).symm hax
      rw [List.filter_cons, hpa]
      simp only [Bool.false_eq_true, if_false]
      exact ih hnd.2 hxt (fun y hy hpy => huniq y (List.mem_cons_of_mem a hy) hpy)

theorem map_delete_filter (l : List (String × RemoteInvitee)) (iid : String) :
    (l.map (fun q => Call.inviteeDelete q.2.id)).filter
        (isInviteeDeleteFor iid) =
      (l.filter (fun q => q.2.id = iid)).map
        (fun q => Call.inviteeDelete q.2.id) := by
  induction l with
  | nil => rfl
  | cons q t ih =>
    rw [List.map_cons, List.filter_cons, List.filter_cons]
    by_cases hq : q.2.id = iid <;> simp [isInviteeDeleteFor, hq, ih]

theorem map_delete_filter_update (l : List (String × RemoteInvitee))
    (email : String) :
    (l.map (fun q => Call.inviteeDelete q.2.id)).filter
      (isInviteeUpdateFor email) = [] := by
  rw [List.filter_eq_nil_iff]
  intro c hc
  rcases List.mem_map.1 hc with ⟨q, _, hq⟩
  subst hq
  simp [isInviteeUpdateFor]

theorem map_delete_filter_create (l : List (String × RemoteInvitee))
    (email : String) :
    (l.map (fun q => Call.inviteeDelete q.2.id)).filter
      (isInviteeCreateFor email) = [] := by
  rw [List.filter_eq_nil_iff]
  intro c hc
  rcases List.mem_map.1 hc with ⟨q, _, hq⟩
  subst hq
  simp [isInviteeCreateFor]

theorem inviteeOpFor_not_delete (mid : String)
    (panelists cohosts : List (String × String))
    (cur : List (String × RemoteInvitee)) (p : String × String)
    (c : Call) (h : inviteeOpFor mid panelists cohosts cur p = some c)
    (iid : String) : isInviteeDeleteFor iid c = false := by
  unfold inviteeOpFor at h
  cases hl : alookup cur p.1 with
  | some inv =>
    rw [hl] at h
    dsimp only at h
    by_cases hc2 : ¬ p.2 = inv.displayName ∨ ¬ amem cohosts p.1 = inv.coHost
    · rw [if_pos hc2] at h
      cases h
      rfl
    · rw [if_neg hc2] at h
      exact Option.noConfusion h
  | none =>
    rw [hl] at h
    dsimp only at h
    cases h
    rfl

theorem inviteeOpFor_update_email (mid : String)
    (panelists cohosts : List (String × String))
    (cur : List (String × RemoteInvitee)) (p : String × String)
    (c : Call) (h : inviteeOpFor mid panelists cohosts cur p = some c)
    (email : String) (hne : ¬ p.1 = email) :
    isInviteeUpdateFor email c = false := by
  unfold inviteeOpFor at h
  cases hl : alookup cur p.1 with
  | some inv =>
    rw [hl] at h
    dsimp only at h
    by_cases hc2 : ¬ p.2 = inv.displayName ∨ ¬ amem cohosts p.1 = inv.coHost
    · rw [if_pos hc2] at h
      cases h
      simp [isInviteeUpdateFor, hne]
    · rw [if_neg hc2] at h
      exact Option.noConfusion h
  | none =>
    rw [hl] at h
    dsimp only at h
    cases h
    rfl

theorem inviteeOpFor_create_email (mid : String)
    (panelists cohosts : List (String × String))
    (cur : List (String × RemoteInvitee)) (p : String × String)
    (c : Call) (h : inviteeOpFor mid panelists cohosts cur p = some c)
    (email : String) (hne : ¬ p.1 = email) :
    isInviteeCreateFor email c = false := by
  unfold inviteeOpFor at h
  cases hl : alookup cur p.1 with
  | some inv =>
    rw [hl] at h
    dsimp only at h
    by_cases hc2 : ¬ p.2 = inv.displayName ∨ ¬ amem cohosts p.1 = inv.coHost
    · rw [if_pos hc2] at h
      cases h
      rfl
    · rw [if_neg hc2] at h
      exact Option.noConfusion h
  | none =>
    rw [hl] at h
    dsimp only at h
    cases h
    simp [isInviteeCreateFor, hne]

theorem inviteeOpFor_found_not_create (mid : String)
    (panelists cohosts : List (String × String))
    (cur : List (String × RemoteInvitee)) (p : String × String)
    (inv : RemoteInvitee) (hl : alookup cur p.1 = some inv) (c : Call)
    (h : inviteeOpFor mid panelists cohosts cur p = some c)
    (email : String) : isInviteeCreateFor email c = false := by
  unfold inviteeOpFor at h
  rw [hl] at h
  dsimp only at h
  by_cases hc2 : ¬ p.2 = inv.displayName ∨ ¬ amem cohosts p.1 = inv.coHost
  · rw [if_pos hc2] at h
    cases h
    rfl
  · rw [if_neg hc2] at h
    exact Option.noConfusion h

/-! ### Claim C1: invitee reconciliation diffing -/

/-- Claim C1: invitee reconciliation diffing.  For every desired invitee
email (a key of the merged `panelists | cohosts` map): if a remote
invitee with that email is flagged panelist-or-coHost, the engine issues
exactly one invitee update — carrying the desired display name,
`panelist = true`, `coHost` = membership in the desired cohost set and
`notify = true` — when the display name or coHost flag differs and no
update when both match, and in either case that invitee is accounted for
(no delete is issued for it); for every desired email with no such remote
invitee it issues exactly one invitee create with the same flags; and
every remaining remote panelist-or-coHost invitee whose email is not
desired receives exactly one delete (and no update or create). -/
theorem C1_invitee_reconciliation (mid : String)
    (panelists cohosts : List (String × String))
    (remote : List RemoteInvitee)
    (hP : (panelists.map Prod.fst).Nodup)
    (hI : (remote.map RemoteInvitee.id).Nodup) :
    (∀ email nm, (email, nm) ∈ dupdate panelists cohosts →
      (∀ inv, alookup (buildCurrentInvitees remote) email = some inv →
        ((reconcileInvitees mid panelists cohosts
            (buildCurrentInvitees remote)).filter (isInviteeUpdateFor email) =
          (if ¬ nm = inv.displayName ∨ ¬ amem cohosts email = inv.coHost then
            [Call.inviteeUpdate inv.id email nm true (amem cohosts email)
              true]
           else [])
        ∧ (reconcileInvitees mid panelists cohosts
            (buildCurrentInvitees remote)).filter (isInviteeCreateFor email)
            = []
        ∧ (reconcileInvitees mid panelists cohosts
            (buildCurrentInvitees remote)).filter (isInviteeDeleteFor inv.id)
            = []))
      ∧ (alookup (buildCurrentInvitees remote) email = none →
        ((reconcileInvitees mid panelists cohosts
            (buildCurrentInvitees remote)).filter (isInviteeCreateFor email) =
          [Call.inviteeCreate mid email nm true (amem cohosts email) true]
        ∧ (reconcileInvitees mid panelists cohosts
            (buildCurrentInvitees remote)).filter (isInviteeUpdateFor email)
            = [])))
    ∧ (∀ k inv, (k, inv) ∈ buildCurrentInvitees remote →
        amem (dupdate panelists cohosts) k = false →
        ((reconcileInvitees mid panelists cohosts
            (buildCurrentInvitees remote)).filter (isInviteeDeleteFor inv.id)
            = [Call.inviteeDelete inv.id]
        ∧ (reconcileInvitees mid panelists cohosts
            (buildCurrentInvitees remote)).filter (isInviteeUpdateFor k) = []
        ∧ (reconcileInvitees mid panelists cohosts
            (buildCurrentInvitees remote)).filter (isInviteeCreateFor k)
            = [])) := by
  have hnds : ((dupdate panelists cohosts).map Prod.fst).Nodup :=
    nodup_akeys_dupdate panelists cohosts hP
  have heq := reconcileInvitees_eq mid panelists cohosts
    (buildCurrentInvitees remote) hnds
  constructor
  · intro email nm hmem
    have hdsmem : amem (dupdate panelists cohosts) email = true :=
      (amem_eq_true_iff _ _).mpr ⟨(email, nm), hmem, rfl⟩
    have hpan : (amem panelists email || amem cohosts email) = true := by
      rw [← amem_dupdate]
      exact hdsmem
    constructor
    · intro inv hlook
      have hEntry : (email, inv) ∈ buildCurrentInvitees remote :=
        mem_of_alookup_eq_some _ _ _ hlook
      refine ⟨?_, ?_, ?_⟩
      · rw [heq, List.filter_append, map_delete_filter_update,
          List.append_nil,
          filterMap_filter_key _ hnds email nm hmem _ _
            (fun p hp hpe c hfc => inviteeOpFor_update_email mid panelists
              cohosts _ p c hfc email hpe)]
        unfold inviteeOpFor
        dsimp only
        rw [hlook]
        dsimp only
        by_cases hc : ¬ nm = inv.displayName ∨
            ¬ amem cohosts email = inv.coHost
        · rw [if_pos hc, if_pos hc, hpan]
          simp [isInviteeUpdateFor]
        · rw [if_neg hc, if_neg hc]
          rfl
      · rw [heq, List.filter_append, map_delete_filter_create,
          List.append_nil]
        apply filterMap_filter_all_nil
        intro x hx c hfc
        by_cases hxe : x.1 = email
        · refine inviteeOpFor_found_not_create mid panelists cohosts _ x inv
            ?_ c hfc email
          rw [hxe]
          exact hlook
        · exact inviteeOpFor_create_email mid panelists cohosts _ x c hfc
            email hxe
      · rw [heq, List.filter_append]
        rw [filterMap_filter_all_nil _ _ _
          (fun x hx c hfc => inviteeOpFor_not_delete mid panelists cohosts
            _ x c hfc inv.id)]
        rw [List.nil_append, map_delete_filter]
        have hnil : ((buildCurrentInvitees remote).filter
            (fun q => ¬ amem (dupdate panelists cohosts) q.1 = true)).filter
            (fun q => q.2.id = inv.id) = [] := by
          rw [List.filter_eq_nil_iff]
          intro q hq hqid
          have hqcur : q ∈ buildCurrentInvitees remote :=
            (List.mem_filter.1 hq).1
          have hqpred := (List.mem_filter.1 hq).2
          have hqe : q = (email, inv) :=
            buildCurrentInvitees_values_eq remote hI q (email, inv) hqcur
              hEntry (by simpa using hqid)
          rw [hqe] at hqpred
          simp [hdsmem] at hqpred
        rw [hnil]
        rfl
    · intro hlook
      refine ⟨?_, ?_⟩
      · rw [heq, List.filter_append, map_delete_filter_create,
          List.append_nil,
          filterMap_filter_key _ hnds email nm hmem _ _
            (fun p hp hpe c hfc => inviteeOpFor_create_email mid panelists
              cohosts _ p c hfc email hpe)]
        unfold inviteeOpFor
        dsimp only
        rw [hlook]
        dsimp only
        rw [hpan]
        simp [isInviteeCreateFor]
      · rw [heq, List.filter_append, map_delete_filter_update,
          List.append_nil,
          filterMap_filter_key _ hnds email nm hmem _ _
            (fun p hp hpe c hfc => inviteeOpFor_update_email mid panelists
              cohosts _ p c hfc email hpe)]
        unfold inviteeOpFor
        dsimp only
        rw [hlook]
        dsimp only
        rfl
  · intro k inv hkmem hkds
    have hknotin : ∀ p ∈ dupdate panelists cohosts, ¬ p.1 = k :=
      fun p hp => (amem_eq_false_iff _ _).1 hkds p hp
    refine ⟨?_, ?_, ?_⟩
    · rw [heq, List.filter_append]
      rw [filterMap_filter_all_nil _ _ _
        (fun x hx c hfc => inviteeOpFor_not_delete mid panelists cohosts
          _ x c hfc inv.id)]
      rw [List.nil_append, map_delete_filter]
      have hsingle : ((buildCurrentInvitees remote).filter
          (fun q => ¬ amem (dupdate panelists cohosts) q.1 = true)).filter
          (fun q => q.2.id = inv.id) = [(k, inv)] := by
        apply filter_eq_singleton_of_unique
        · exact List.Nodup.filter _ (buildCurrentInvitees_nodup remote)
        · exact List.mem_filter.2 ⟨hkmem, by simp [hkds]⟩
        · simp
        · intro y hy hyid
          exact buildCurrentInvitees_values_eq remote hI y (k, inv)
            (List.mem_filter.1 hy).1 hkmem (by simpa using hyid)
      rw [hsingle]
      rfl
    · rw [heq, List.filter_append, map_delete_filter_update,
        List.append_nil]
      apply filterMap_filter_all_nil
      intro x hx c hfc
      exact inviteeOpFor_update_email mid panelists cohosts _ x c hfc k
        (hknotin x hx)
    · rw [heq, List.filter_append, map_delete_filter_create,
        List.append_nil]
      apply filterMap_filter_all_nil
      intro x hx c hfc
      exact inviteeOpFor_create_email mid panelists cohosts _ x c hfc k
        (hknotin x hx)

/-- Witness for C1: against remote invitees `exInvA` (stale name) and
`exInvD` (no longer desired), the desired map issues exactly one update
for `a@x.com` and exactly one delete for `exInvD`. -/
theorem C1_invitee_reconciliation_witness :
    ((reconcileInvitees "W" [("a@x.com", "A2"), ("b@x.com", "B")]
        [("c@x.com", "C")]
        (buildCurrentInvitees [exInvA, exInvD])).filter
      (isInviteeUpdateFor "a@x.com") =
      (if ¬ "A2" = exInvA.displayName ∨
          ¬ amem [("c@x.com", "C")] "a@x.com" = exInvA.coHost then
        [Call.inviteeUpdate exInvA.id "a@x.com" "A2" true
          (amem [("c@x.com", "C")] "a@x.com") true]
       else []))
    ∧ (reconcileInvitees "W" [("a@x.com", "A2"), ("b@x.com", "B")]
        [("c@x.com", "C")]
        (buildCurrentInvitees [exInvA, exInvD])).filter
      (isInviteeDeleteFor exInvD.id) = [Call.inviteeDelete exInvD.id] :=
  ⟨((C1_invitee_reconciliation "W" [("a@x.com", "A2"), ("b@x.com", "B")]
      [("c@x.com", "C")] [exInvA, exInvD] (by decide) (by decide)).1
      "a@x.com" "A2" (by decide)).1 exInvA (by decide) |>.1,
   ((C1_invitee_reconciliation "W" [("a@x.com", "A2"), ("b@x.com", "B")]
      [("c@x.com", "C")] [exInvA, exInvD] (by decide) (by decide)).2
      "d@x.com" exInvD (by decide) (by decide)).1⟩

/-! ### Claim C4: the second pass after a successful create -/

theorem extractIntent_set_webinarId (cfg : Config) (row : Row)
    (v : Option String) (e : Intent)
    (h : extractIntent cfg row = Except.ok e) :
    extractIntent cfg { row with webinarId := v } =
      Except.ok { e with id := v } := by
  unfold extractIntent at h ⊢
  cases hs : row.startdatetimeRaw with
  | none =>
    rw [hs] at h
    exact Except.noConfusion h
  | some s =>
    rw [hs] at h
    dsimp only at h ⊢
    cases hp : parseDate s with
    | none =>
      rw [hp] at h
      exact Except.noConfusion h
    | some start =>
      rw [hp] at h
      dsimp only at h ⊢
      simp only [Except.ok.injEq] at h
      subst h
      rfl

theorem find?_id_of_head_absent (ws : List Webinar) (w : Webinar)
    (j : String) (h : List.find? (fun x => x.id = j) ws = none) :
    List.find? (fun x => x.id = j) (ws ++ [w]) =
      List.find? (fun x => x.id = j) [w] := by
  induction ws with
  | nil => rfl
  | cons v t ih =>
    rw [List.find?_cons] at h ⊢
    by_cases hv : v.id = j
    · simp only [hv, decide_True] at h
      exact Option.noConfusion h
    · simp only [hv, decide_False] at h ⊢
      rw [List.cons_append]
      rw [List.find?_cons]
      simp only [hv, decide_False]
      exact ih h

theorem find?_map_id_preserving (l : List Webinar) (g : Webinar → Webinar)
    (j : String) (hg : ∀ w, (g w).id = w.id) :
    List.find? (fun x => x.id = j) (l.map g) =
      Option.map g (List.find? (fun x => x.id = j) l) := by
  induction l with
  | nil => rfl
  | cons v t ih =>
    rw [List.map_cons, List.find?_cons, List.find?_cons]
    by_cases hv : v.id = j
    · have hgv : (g v).id = j := by rw [hg v, hv]
      simp [hgv, hv]
    · have hgv : ¬ (g v).id = j := by rw [hg v]; exact hv
      simp [hgv, hv, ih]

theorem lookupWebinar_inviteePhase (cfg : Config) (st : RemoteState)
    (e : Intent) (w : Webinar) (j : String) :
    lookupWebinar (inviteePhase cfg st e w).2 j =
      Option.map (fun ww => if ww.id = w.id then
        { ww with invitees :=
          ((processInvitees cfg.noCohosts w.id e.panelists e.cohosts
            w.invitees).foldl applyInviteeOp (w.invitees,
              st.nextInviteeNum)).1 }
        else ww) (lookupWebinar st j) := by
  unfold inviteePhase lookupWebinar updateWebinarIn
  simp only
  apply find?_map_id_preserving
  intro ww
  by_cases hw : ww.id = w.id
  · rw [if_pos hw]
  · rw [if_neg hw]

theorem createPath_state_lookup (cfg : Config) (rst : RunState) (row : Row)
    (e : Intent)
    (h4 : lookupWebinar rst.remote (freshMeetingId rst.remote) = none) :
    ∃ w2 : Webinar,
      lookupWebinar (createPath cfg rst row e).2.1.remote
          (freshMeetingId rst.remote) = some w2
      ∧ w2.title = e.title ∧ w2.agenda = e.agenda
      ∧ w2.start = e.startdatetime ∧ w2.endTime = e.enddatetime := by
  have hrem : (createPath cfg rst row e).2.1.remote =
      (inviteePhase cfg
        { rst.remote with
          webinars := rst.remote.webinars ++ [createdWebinar rst e]
          nextMeetingNum := rst.remote.nextMeetingNum + 1 }
        e (createdWebinar rst e)).2 := rfl
  rw [hrem, lookupWebinar_inviteePhase]
  have hst1 : lookupWebinar
      { rst.remote with
        webinars := rst.remote.webinars ++ [createdWebinar rst e]
        nextMeetingNum := rst.remote.nextMeetingNum + 1 }
      (freshMeetingId rst.remote) = some (createdWebinar rst e) := by
    unfold lookupWebinar at h4 ⊢
    simp only
    rw [find?_id_of_head_absent rst.remote.webinars (createdWebinar rst e)
      (freshMeetingId rst.remote) h4]
    rw [List.find?_cons]
    have hid : (createdWebinar rst e).id = freshMeetingId rst.remote := rfl
    simp [hid]
  rw [hst1]
  refine ⟨_, rfl, ?_, ?_, ?_, ?_⟩
  all_goals simp [createdWebinar]

/-- The freshly minted webinar id is never the empty string, so the
write-back makes the id non-falsy for the next pass. -/
theorem idFalsy_freshMeetingId (st : RemoteState) :
    idFalsy (some (freshMeetingId st)) = false := by
  unfold idFalsy freshMeetingId
  rw [decide_eq_false_iff_not]
  intro h
  have hd := congrArg String.data h
  simp at hd

theorem needUpdate_false_of_fields (e : Intent) (v : Option String)
    (w : Webinar) (ht : w.title = e.title) (ha : w.agenda = e.agenda)
    (hs : w.start = e.startdatetime) (hen : w.endTime = e.enddatetime) :
    needUpdate { e with id := v } w = false := by
  unfold needUpdate needUpdateSendEmail
  simp [ht, ha, hs, hen]

/-- Counterexample to C4 as stated: a fresh row (no externalId) is
created on the first pass; the second pass over the written-back row
issues zero webinar update calls (not exactly one), because nothing
differs from the remote. -/
theorem C4_second_pass_counterexample :
    idFalsy exRowC4.webinarId = true
    ∧ countCalls (processRow exCfgC2 exRst0 exRowC4).1 isMeetingsCreate = 1
    ∧ countCalls (processRow exCfgC2
        (processRow exCfgC2 exRst0 exRowC4).2.1
        (processRow exCfgC2 exRst0 exRowC4).2.2).1 isMeetingsCreate = 0
    ∧ countCalls (processRow exCfgC2
        (processRow exCfgC2 exRst0 exRowC4).2.1
        (processRow exCfgC2 exRst0 exRowC4).2.2).1 isMeetingsUpdate = 0
    ∧ ¬ countCalls (processRow exCfgC2
        (processRow exCfgC2 exRst0 exRowC4).2.1
        (processRow exCfgC2 exRst0 exRowC4).2.2).1 isMeetingsUpdate = 1 := by
  decide

/-- Claim C4 (amended): after a successful create and externalId
write-back, a subsequent pass over the same row with no source changes
takes the fetch-then-conditional-update path — no second create call and
exactly one fetch — and issues zero update calls, because the remote
reflects the created values and `needUpdate` is false. -/
theorem C4_second_pass_behavior (cfg : Config) (rst : RunState) (row : Row)
    (e : Intent) (h1 : row.create = true)
    (h2 : extractIntent cfg row = Except.ok e)
    (h3 : idFalsy e.id = true)
    (h4 : lookupWebinar rst.remote (freshMeetingId rst.remote) = none) :
    countCalls (processRow cfg (processRow cfg rst row).2.1
      (processRow cfg rst row).2.2).1 isMeetingsCreate = 0
    ∧ countCalls (processRow cfg (processRow cfg rst row).2.1
        (processRow cfg rst row).2.2).1 isMeetingsGet = 1
    ∧ countCalls (processRow cfg (processRow cfg rst row).2.1
        (processRow cfg rst row).2.2).1 isMeetingsUpdate = 0 := by
  rw [processRow_create cfg rst row e h1 h2 h3]
  have hrow1 : (createPath cfg rst row e).2.2 =
      { row with webinarId := some (freshMeetingId rst.remote) } := rfl
  have hex : extractIntent cfg (createPath cfg rst row e).2.2 =
      Except.ok { e with id := some (freshMeetingId rst.remote) } := by
    rw [hrow1]
    exact extractIntent_set_webinarId cfg row _ e h2
  have hcr : ((createPath cfg rst row e).2.2).create = true := h1
  rw [processRow_present cfg (createPath cfg rst row e).2.1
    (createPath cfg rst row e).2.2 _ hcr hex
    (idFalsy_freshMeetingId rst.remote)]
  rcases createPath_state_lookup cfg rst row e h4 with
    ⟨w2, hlw, ht, ha, hs, hen⟩
  have hgd : (({ e with id := some (freshMeetingId rst.remote) } :
      Intent).id.getD "") = freshMeetingId rst.remote := rfl
  rw [hgd] at *
  have hnu : needUpdate { e with id := some (freshMeetingId rst.remote) }
      w2 = false := needUpdate_false_of_fields e _ w2 ht ha hs hen
  refine ⟨?_, ?_, ?_⟩
  · rw [presentPath_countCalls_some _ _ _ _ _ w2 hlw isMeetingsCreate
      (fun i => rfl) (fun n => rfl) rfl (fun m => rfl)
      isMeetingsCreate_false_of_inviteeOp]
    rw [hnu]
    rfl
  · rw [presentPath_countCalls_some _ _ _ _ _ w2 hlw isMeetingsGet
      (fun i => rfl) (fun n => rfl) rfl (fun m => rfl)
      isMeetingsGet_false_of_inviteeOp]
    rw [hnu]
    rfl
  · rw [presentPath_countCalls_some _ _ _ _ _ w2 hlw isMeetingsUpdate
      (fun i => rfl) (fun n => rfl) rfl (fun m => rfl)
      isMeetingsUpdate_false_of_inviteeOp]
    rw [hnu]
    rfl

/-- Witness for the amended C4 at the concrete fresh row: the second
pass issues no create, one fetch and no update. -/
theorem C4_second_pass_behavior_witness :
    countCalls (processRow exCfgC2 (processRow exCfgC2 exRst0 exRowC4).2.1
      (processRow exCfgC2 exRst0 exRowC4).2.2).1 isMeetingsCreate = 0
    ∧ countCalls (processRow exCfgC2 (processRow exCfgC2 exRst0 exRowC4).2.1
        (processRow exCfgC2 exRst0 exRowC4).2.2).1 isMeetingsGet = 1
    ∧ countCalls (processRow exCfgC2 (processRow exCfgC2 exRst0 exRowC4).2.1
        (processRow exCfgC2 exRst0 exRowC4).2.2).1 isMeetingsUpdate = 0 :=
  C4_second_pass_behavior exCfgC2 exRst0 exRowC4 exIntentC4 rfl rfl rfl rfl

end SchedulePy
